import Mathlib

set_option maxRecDepth 8000

/-!
Verification development for the golf-swing analysis backend.

The JavaScript sources are shallowly embedded over exact rationals:
JS numbers become `ℚ` (every value produced by this code path is finite,
and `Number.isFinite` checks are reflected through `Option ℚ`, `none`
standing for `null`/`undefined`/non-finite).  The only irrational value
the code produces is the impact-stability *score* (it involves a square
root); that single field is embedded in `ℝ`, and every *comparison*
against a square root in the sources is embedded as the equivalent
comparison of squares, with the equivalence noted at the definition.
-/

/-- JS `Math.round`: rounds half toward positive infinity. -/
def jsRound (q : ℚ) : ℤ := ⌊q + 1/2⌋

/-- JS `Number(x.toFixed(2))` for the nonnegative quantities this code
rounds (confidence, score, tempo ratio): round to two decimals, half up. -/
def toFixed2 (q : ℚ) : ℚ := (jsRound (q * 100) : ℚ) / 100

/-- `clamp(value, min, max)` from `track_utils` (`Math.min(max, Math.max(min, value))`). -/
def clampQ (value lo hi : ℚ) : ℚ := min hi (max lo value)

/-- The real-valued counterpart of `clampQ`, used only for the
impact-stability score (the one square-root-valued quantity). -/
noncomputable def clampR (value lo hi : ℝ) : ℝ := min hi (max lo value)

/-- `Math.round` on the reals, for the score rounding. -/
noncomputable def jsRoundR (x : ℝ) : ℤ := ⌊x + 1/2⌋

/-- `Number(x.toFixed(2))` on the reals, for the score rounding. -/
noncomputable def toFixed2R (x : ℝ) : ℝ := (jsRoundR (x * 100) : ℝ) / 100

/-- Does `sub` occur at the start of `l`? (helper for JS `String.prototype.includes`). -/
def startsWithChars : List Char → List Char → Bool
  | [], _ => true
  | _ :: _, [] => false
  | c :: cs, d :: ds => c == d && startsWithChars cs ds

/-- Does `sub` occur anywhere in `l`? (helper for JS `String.prototype.includes`). -/
def charsHasSub (sub : List Char) : List Char → Bool
  | [] => sub.isEmpty
  | c :: t => startsWithChars sub (c :: t) || charsHasSub sub t

/-- JS `String.prototype.includes`. -/
def strIncludes (s sub : String) : Bool := charsHasSub sub.data s.data

/-- JS `String.prototype.toLowerCase` (ASCII labels only in this code
base), as a character-list map. -/
def toLowerStr (s : String) : String := ⟨s.data.map Char.toLower⟩

/-! ## Data model (canonical frames, detections, tracks) -/

/-- A normalized bounding box (`{x, y, w, h}`). -/
structure Bbox where
  x : ℚ
  y : ℚ
  w : ℚ
  h : ℚ
deriving DecidableEq

/-- A normalized detection as produced by the detection normalizer
(`label`/`classId`/`conf` are nullable, `bbox` always present). -/
structure Detection where
  label : Option String
  classId : Option ℚ
  conf : Option ℚ
  bbox : Bbox
deriving DecidableEq

/-- A canonical frame: resolved timestamp (`none` = unresolvable), frame
index, and normalized detections. -/
structure Frame where
  t : Option ℚ
  frame : Option ℚ
  detections : List Detection
deriving DecidableEq

/-- One track point (`{t, frame, x, y, conf}` in `track_utils.buildTrack`). -/
structure TrackPoint where
  t : ℚ
  frame : Option ℚ
  x : ℚ
  y : ℚ
  conf : Option ℚ
deriving DecidableEq

/-! ## `track_utils` (src/unnamed/part_003) -/

/-- `BALL_LABELS` from `track_utils`. -/
def BALL_LABELS : List String := ["golf_ball", "golfball", "golf ball", "ball"]

/-- `CLUB_LABELS` from `track_utils`. -/
def CLUB_LABELS : List String := ["clubhead", "club_head", "club-head", "club head", "club"]

/-- `BALL_CLASS_ID`: `parseInt(process.env.BALL_CLASS_ID)`; the environment
variable is not set in the modeled deployment, so the parsed id is not
finite (`none`). -/
def BALL_CLASS_ID : Option ℚ := none

/-- `CLUB_CLASS_ID`: as `BALL_CLASS_ID`, unset. -/
def CLUB_CLASS_ID : Option ℚ := none

/-- `normalizeLabel`: lowercase, empty string for a missing label. -/
def normalizeLabel (label : Option String) : String :=
  match label with
  | none => ""
  | some s => toLowerStr s

/-- `matchesLabel`: the label equals a candidate or contains it as a
substring (equality is subsumed by `includes` but kept as in the source). -/
def matchesLabel (label : String) (candidates : List String) : Bool :=
  if label = "" then false
  else candidates.any (fun candidate => label == candidate || strIncludes label candidate)

/-- `matchesClassId`. -/
def matchesClassId (det : Detection) (targetId : Option ℚ) : Bool :=
  match targetId with
  | none => false
  | some tid =>
    match det.classId with
    | none => false
    | some cid => cid == tid

/-- `isBallDetection`. -/
def isBallDetection (det : Detection) : Bool :=
  matchesLabel (normalizeLabel det.label) BALL_LABELS ||
    (BALL_CLASS_ID.isSome && matchesClassId det BALL_CLASS_ID)

/-- `isClubheadDetection`. -/
def isClubheadDetection (det : Detection) : Bool :=
  matchesLabel (normalizeLabel det.label) CLUB_LABELS ||
    (CLUB_CLASS_ID.isSome && matchesClassId det CLUB_CLASS_ID)

/-- `bboxCenter` (the finiteness checks always pass over `ℚ`). -/
def bboxCenter (bbox : Bbox) : ℚ × ℚ := (bbox.x + bbox.w / 2, bbox.y + bbox.h / 2)

/-- `selectBestDetection`: highest confidence wins, missing confidence
scores 0, strict comparison keeps the first on ties. -/
def selectBestDetection (detections : List Detection) (pred : Detection → Bool) :
    Option Detection :=
  (detections.foldl
    (fun best det =>
      if pred det then
        let score := det.conf.getD 0
        match best with
        | none => some (det, score)
        | some (b, bestScore) =>
          if score > bestScore then some (det, score) else some (b, bestScore)
      else best)
    none).map Prod.fst

/-- `buildTrack`: per frame, the best matching detection's bbox center;
timestamp falls back to `frame * (1000/30)`, frames with neither are skipped. -/
def buildTrack (frames : List Frame) (pred : Detection → Bool) : List TrackPoint :=
  frames.foldr
    (fun frame track =>
      match selectBestDetection frame.detections pred with
      | none => track
      | some best =>
        let center := bboxCenter best.bbox
        match frame.t with
        | some t =>
          { t := t, frame := frame.frame, x := center.1, y := center.2, conf := best.conf } :: track
        | none =>
          match frame.frame with
          | some fr =>
            { t := fr * (1000 / 30), frame := frame.frame, x := center.1, y := center.2,
              conf := best.conf } :: track
          | none => track)
    []

/-- Running maximum of `|x|`, `|y|` over a point list, starting from 0
(the loop body of `inferNormalized`). -/
def maxAbsCoord (points : List TrackPoint) : ℚ :=
  points.foldl (fun m p => max m (max |p.x| |p.y|)) 0

/-- `inferNormalized`: the maximum absolute coordinate is in `(0, 1.5]`. -/
def inferNormalized (points : List TrackPoint) : Bool :=
  let m := maxAbsCoord points
  decide (0 < m) && decide (m ≤ 3/2)

/-! ## Event engine: impact detection (src/analysis/engine.js) -/

/-- Squared displacement between two consecutive track points.  The source
compares `Math.hypot(dx, dy)` (and the derived speed) against nonnegative
thresholds; all such comparisons are embedded as comparisons of squares,
which is equivalent because both sides are nonnegative. -/
def pairSq (pr : TrackPoint × TrackPoint) : ℚ :=
  (pr.2.x - pr.1.x) ^ 2 + (pr.2.y - pr.1.y) ^ 2

/-- Time delta of a consecutive pair. -/
def pairDt (pr : TrackPoint × TrackPoint) : ℚ := pr.2.t - pr.1.t

/-- `dist >= distanceThreshold || speed >= speedThreshold` for a pair with
positive `dt`, as comparisons of squares (`speed = dist/dt ≥ s ⟺ dist² ≥ (s·dt)²`). -/
def crossesB (distanceThreshold speedThreshold : ℚ) (pr : TrackPoint × TrackPoint) : Bool :=
  decide (pairSq pr ≥ distanceThreshold ^ 2) ||
    decide (pairSq pr ≥ (speedThreshold * pairDt pr) ^ 2)

/-- The loop of `detectImpactFromTrack`.  `best` carries the running
highest-speed candidate as `(point, dist², dt)`; `speed₁ > speed₂` is
embedded as `dist₁²·dt₂² > dist₂²·dt₁²` (both `dt` are positive).
Iterations with `dt ≤ 0` are skipped, but `prev` always advances. -/
def detectImpactAux (distanceThreshold speedThreshold : ℚ) (prev : TrackPoint)
    (track : List TrackPoint) (best : Option (TrackPoint × ℚ × ℚ)) : Option TrackPoint :=
  match track with
  | [] =>
    match best with
    | some (bp, bsq, bdt) =>
      if bsq ≥ (speedThreshold * bdt) ^ 2 then some bp else none
    | none => none
  | curr :: rest =>
    let dt := curr.t - prev.t
    if 0 < dt then
      let sq := (curr.x - prev.x) ^ 2 + (curr.y - prev.y) ^ 2
      if sq ≥ distanceThreshold ^ 2 ∨ sq ≥ (speedThreshold * dt) ^ 2 then some curr
      else
        let best' :=
          match best with
          | none => some (curr, sq, dt)
          | some (bp, bsq, bdt) =>
            if sq * bdt ^ 2 > bsq * dt ^ 2 then some (curr, sq, dt) else some (bp, bsq, bdt)
        detectImpactAux distanceThreshold speedThreshold curr rest best'
    else detectImpactAux distanceThreshold speedThreshold curr rest best

/-- `detectImpactFromTrack`: `null` for short tracks, else the loop from
the second point (the returned `speed` annotation is unused by all callers
and omitted). -/
def detectImpactFromTrack (track : List TrackPoint)
    (distanceThreshold speedThreshold : ℚ) : Option TrackPoint :=
  match track with
  | [] => none
  | [_] => none
  | p :: rest => detectImpactAux distanceThreshold speedThreshold p rest none

/-! Specification-side impact resolution, following the words of the spec
("Impact is the earliest point … where, relative to the previous point,
either displacement or instantaneous speed crosses a … threshold.  If no
point crosses threshold, the single highest-speed point is used as impact
only if its speed still meets the (non-relaxed) speed threshold; otherwise
impact is unresolved").  It is compared with `detectImpactFromTrack`. -/

/-- Consecutive pairs of a track with positive time delta (the pairs the
spec's "relative to the previous point" quantifies over). -/
def validPairs (prev : TrackPoint) (track : List TrackPoint) :
    List (TrackPoint × TrackPoint) :=
  match track with
  | [] => []
  | c :: r =>
    if 0 < c.t - prev.t then (prev, c) :: validPairs c r else validPairs c r

/-- Fold step selecting the highest-speed pair, earliest first on ties
(state: `(point, dist², dt)`). -/
def stepBest (best : Option (TrackPoint × ℚ × ℚ)) (pr : TrackPoint × TrackPoint) :
    Option (TrackPoint × ℚ × ℚ) :=
  match best with
  | none => some (pr.2, pairSq pr, pairDt pr)
  | some (bp, bsq, bdt) =>
    if pairSq pr * bdt ^ 2 > bsq * pairDt pr ^ 2 then some (pr.2, pairSq pr, pairDt pr)
    else some (bp, bsq, bdt)

/-- Spec-side impact: earliest threshold-crossing point; failing that, the
highest-speed point if it meets the (non-relaxed) speed threshold; else none. -/
def specImpact (track : List TrackPoint) (distanceThreshold speedThreshold : ℚ) :
    Option TrackPoint :=
  match track with
  | [] => none
  | [_] => none
  | p :: rest =>
    match (validPairs p rest).find? (crossesB distanceThreshold speedThreshold) with
    | some pr => some pr.2
    | none =>
      match (validPairs p rest).foldl stepBest none with
      | some (bp, bsq, bdt) =>
        if bsq ≥ (speedThreshold * bdt) ^ 2 then some bp else none
      | none => none

/-! ## Event engine: `detectEvents` (src/analysis/engine.js) -/

/-- The four swing events, nullable (values are `Math.round`ed). -/
structure Events where
  addressMs : Option ℚ
  topMs : Option ℚ
  impactMs : Option ℚ
  finishMs : Option ℚ
deriving DecidableEq

/-- The `signals` object of `detectEvents`. -/
structure Signals where
  hasBall : Bool
  hasClub : Bool
  impactSource : String
deriving DecidableEq

/-- Result of `detectEvents`. -/
structure DetectResult where
  events : Events
  signals : Signals
deriving DecidableEq

/-- The top-of-backswing scan: minimum-`y` club point at or before `limit`
(`limit = none` models `Number.POSITIVE_INFINITY`); strict `<` keeps the
first minimum. -/
def findTop (clubTrack : List TrackPoint) (limit : Option ℚ) : Option TrackPoint :=
  clubTrack.foldl
    (fun best point =>
      if (match limit with | some l => decide (point.t > l) | none => false) then best
      else
        match best with
        | none => some point
        | some b => if point.y < b.y then some point else some b)
    none

/-- The impact-resolution core of `detectEvents`: try the ball track when
it has ≥2 points, fall back to the club track (when it has ≥2 points) with
a doubled distance threshold; tag the source. -/
def impactPairOf (ballTrack clubTrack : List TrackPoint)
    (distanceThreshold speedThreshold : ℚ) (hasBall hasClub : Bool) :
    Option (TrackPoint × String) :=
  match (if hasBall then detectImpactFromTrack ballTrack distanceThreshold speedThreshold
         else none) with
  | some p => some (p, "ball")
  | none =>
    if hasClub then
      match detectImpactFromTrack clubTrack (distanceThreshold * 2) speedThreshold with
      | some p => some (p, "club")
      | none => none
    else none

/-- `detectEvents`: tracks, domain-scaled thresholds, ball-then-club impact,
boundary address/finish, minimum-`y` top.  Timestamps are always finite in
`ℚ`, so the `Number.isFinite` guards on `addressMs`/`finishMs`/`impactMs`
reduce to presence. -/
def detectEvents (frames : List Frame) : DetectResult :=
  let clubTrack := buildTrack frames isClubheadDetection
  let ballTrack := buildTrack frames isBallDetection
  let hasBall := decide (2 ≤ ballTrack.length)
  let hasClub := decide (2 ≤ clubTrack.length)
  let normalized := inferNormalized (clubTrack ++ ballTrack)
  let distanceThreshold : ℚ := if normalized then 0.04 else 8
  let speedThreshold : ℚ := if normalized then 0.0008 else 0.02
  let impactPair :=
    impactPairOf ballTrack clubTrack distanceThreshold speedThreshold hasBall hasClub
  let impact := impactPair.map Prod.fst
  let impactSource := (impactPair.map Prod.snd).getD "none"
  let addressMs := frames.head?.bind (·.t)
  let finishMs := frames.getLast?.bind (·.t)
  let topMs := (findTop clubTrack (impact.map (·.t))).map (·.t)
  { events :=
      { addressMs := addressMs.map (fun q => ((jsRound q : ℤ) : ℚ))
        topMs := topMs.map (fun q => ((jsRound q : ℤ) : ℚ))
        impactMs := (impact.map (·.t)).map (fun q => ((jsRound q : ℤ) : ℚ))
        finishMs := finishMs.map (fun q => ((jsRound q : ℤ) : ℚ)) }
    signals := { hasBall := hasBall, hasClub := hasClub, impactSource := impactSource } }

/-! ## Metrics engine (src/analysis/metrics_calculator.js) -/

/-- `swingPlane` metric value. -/
structure SwingPlane where
  label : String
  confidence : ℚ
deriving DecidableEq

/-- `tempo` metric value. -/
structure Tempo where
  backswingMs : Option ℚ
  downswingMs : Option ℚ
  ratio : Option ℚ
deriving DecidableEq

/-- `impactStability` metric value.  The score is the one square-root-valued
quantity of the code base and lives in `ℝ`. -/
structure ImpactStability where
  label : String
  score : ℝ

/-- The metrics object. -/
structure Metrics where
  swingPlane : SwingPlane
  tempo : Tempo
  impactStability : ImpactStability

/-- `computeTempo`: requires all of address/top/impact; durations clamped to
`≥ 0`; a zero duration (JS falsiness of `0`) nulls the whole result. -/
def computeTempo (events : Events) : Tempo :=
  match events.addressMs, events.topMs, events.impactMs with
  | some addressMs, some topMs, some impactMs =>
    let backswingMs := max 0 (topMs - addressMs)
    let downswingMs := max 0 (impactMs - topMs)
    if backswingMs = 0 ∨ downswingMs = 0 then { backswingMs := none, downswingMs := none, ratio := none }
    else
      { backswingMs := some ((jsRound backswingMs : ℤ) : ℚ)
        downswingMs := some ((jsRound downswingMs : ℤ) : ℚ)
        ratio := some (toFixed2 (backswingMs / downswingMs)) }
  | _, _, _ => { backswingMs := none, downswingMs := none, ratio := none }

/-- Stable insertion of a point into a list sorted by `key` (inserted
before the first entry with a key `≥` its own). -/
def insertByKey {α : Type} (key : α → ℚ) (p : α) : List α → List α
  | [] => [p]
  | q :: r => if key p ≤ key q then p :: q :: r else q :: insertByKey key p r

/-- Stable sort by a rational key, modelling JS `Array.prototype.sort`
with a numeric comparator (stable since ES2019). -/
def sortByKey {α : Type} (key : α → ℚ) : List α → List α
  | [] => []
  | p :: r => insertByKey key p (sortByKey key r)

/-- The metric window: points within `radius` ms of impact, falling back to
the whole track when the filter keeps fewer than 2 points or impact is
unknown. -/
def metricWindow (track : List TrackPoint) (impactMs : Option ℚ) (radius : ℚ) :
    List TrackPoint :=
  match impactMs with
  | some i =>
    let w := track.filter (fun point => |point.t - i| ≤ radius)
    if w.length < 2 then track else w
  | none => track

/-- `computeSwingPlane`: net horizontal displacement over the sorted 250 ms
window, classified against a domain-scaled threshold.  The source assigns
`label = 'neutral'`, then overwrites on `dx > threshold` and on
`dx < -threshold`, in that order; the nested conditionals below reproduce
that sequence.  The `[]` branch is unreachable (the window of a ≥2-point
track has ≥2 points). -/
def computeSwingPlane (track : List TrackPoint) (impactMs : Option ℚ) : SwingPlane :=
  if track.length < 2 then { label := "neutral", confidence := 0 }
  else
    match sortByKey (·.t) (metricWindow track impactMs 250) with
    | [] => { label := "neutral", confidence := 0 }
    | f :: rest =>
      let l := (f :: rest).getLast?.getD f
      let dx := l.x - f.x
      let normalized := inferNormalized (f :: rest)
      let threshold : ℚ := if normalized then 0.02 else 6
      let label1 := if dx > threshold then "inside-out" else "neutral"
      let label := if dx < -threshold then "outside-in" else label1
      let confidence := clampQ (|dx| / (threshold * 2)) 0 1
      { label := label, confidence := toFixed2 confidence }

/-- Mean of a list of rationals (`reduce` of the sums, divided by the
window length). -/
def meanOf (l : List ℚ) : ℚ := l.sum / l.length

/-- Population variance of a list of rationals (the `varX`/`varY` loop of
`computeImpactStability`). -/
def varOf (l : List ℚ) : ℚ := (l.map (fun v => (v - meanOf l) ^ 2)).sum / l.length

/-- The squared positional spread of a window:
`spread = Math.hypot(√varX, √varY) = √(varX + varY)`, kept squared. -/
def stabilitySpreadSq (window : List TrackPoint) : ℚ :=
  varOf (window.map (·.x)) + varOf (window.map (·.y))

/-- `computeImpactStability`: positional standard deviation over the 200 ms
window.  The label test `score ≥ 0.6 ⟺ spread ≤ 0.4·reference ⟺
varX + varY ≤ (0.4·reference)²` is embedded as the comparison of squares
(`clamp` and the square root are monotone and `reference > 0`); the
reported score keeps the square root and lives in `ℝ`. -/
noncomputable def computeImpactStability (track : List TrackPoint) (impactMs : Option ℚ) :
    ImpactStability :=
  if track.length < 2 then { label := "unstable", score := 0 }
  else
    let window := metricWindow track impactMs 200
    let spreadSq := stabilitySpreadSq window
    let normalized := inferNormalized window
    let reference : ℚ := if normalized then 0.05 else 12
    { label := if spreadSq ≤ (2/5 * reference) ^ 2 then "stable" else "unstable"
      score := toFixed2R (clampR (1 - Real.sqrt (spreadSq : ℝ) / (reference : ℝ)) 0 1) }

/-- `buildSummary`.  Number-to-string interpolation for the tempo ratio is
approximated by `Rat`'s printer; no claim depends on the summary text. -/
def buildSummary (metrics : Metrics) (events : Events) (signals : Signals) : String :=
  let confidenceNote := if metrics.swingPlane.confidence < 0.4 then " (low confidence)" else ""
  let planeLabel := metrics.swingPlane.label
  let stabilityLabel := metrics.impactStability.label
  let tempoPart :=
    match metrics.tempo.ratio with
    | some r =>
      let rs := toString r
      s!"Tempo {rs}:1"
    | none => "Tempo unavailable"
  let parts := [s!"Swing plane {planeLabel}{confidenceNote}",
    s!"Impact stability {stabilityLabel}", tempoPart]
  let notes :=
    (if !signals.hasClub then ["clubhead not detected"] else []) ++
      (if events.impactMs = none then ["impact unknown"] else [])
  let base := String.intercalate ". " parts ++ "."
  if notes.isEmpty then base
  else base ++ " Notes: " ++ String.intercalate ", " notes ++ "."

/-- `calculateMetrics`. -/
noncomputable def calculateMetrics (frames : List Frame) (events : Events) (signals : Signals) :
    Metrics × String :=
  let clubTrack := buildTrack frames isClubheadDetection
  let swingPlane := computeSwingPlane clubTrack events.impactMs
  let tempo := computeTempo events
  let impactStability := computeImpactStability clubTrack events.impactMs
  let metrics : Metrics := { swingPlane := swingPlane, tempo := tempo, impactStability := impactStability }
  let summary :=
    buildSummary metrics events
      { signals with hasClub := decide (0 < clubTrack.length) || signals.hasClub }
  (metrics, summary)

/-! ## Detection normalizer (src/unnamed/part_002)

Only the timestamp/frame-sequence handling is claimed about; the raw
detection payload of a frame is modeled as its already-normalized
detections (the bbox/score schema tolerance of `normalizeDetections` is
not the subject of any claim). -/

/-- A raw frame that is a JSON object.  `ts` is `toNumber` of the first
present synonymous timestamp field (`t`/`time`/`timestamp`/`ts`/`time_ms`/
`timeMs`/`time_s`/`timeSec`), `none` when that is absent or not finite;
`idx` likewise for the frame-index synonyms (`frame`/`frame_id`/
`frameIndex`/`frame_index`/`index`/`id`). -/
structure RawFrameData where
  ts : Option ℚ
  idx : Option ℚ
  detections : List Detection
deriving DecidableEq

/-- A raw frame entry: `none` models an entry that is not an object. -/
def RawFrame : Type := Option RawFrameData

/-- A raw metadata payload that is a JSON object: `fps` is `toNumber` of
the first present fps synonym, `frames` the array found by `extractFrames`
(under `frames`/`results`/`detections`, or the payload itself). -/
structure RawMetaData where
  fps : Option ℚ
  frames : List RawFrame

/-- `normalizeTimestamp`: explicit timestamp (seconds scaled to ms below
1000), else frame-index over fps when fps is positive, else frame-index at
the default 30 fps, else unresolvable. -/
def normalizeTimestamp (raw : Option ℚ) (frameIndex : Option ℚ) (fps : Option ℚ) : Option ℚ :=
  match raw with
  | some t => some (if t < 1000 then t * 1000 else t)
  | none =>
    match frameIndex with
    | some fi =>
      match fps with
      | some f => if 0 < f then some (fi / f * 1000) else some (fi * (1000 / 30))
      | none => some (fi * (1000 / 30))
    | none => none

/-- `parseFrame`: non-objects are dropped; the frame index falls back to
the array position (`?? index`), hence is always finite, so the
`Number.isFinite(frameIndex)` guard on the stored `frame` always passes. -/
def parseFrame (rawFrame : RawFrame) (index : ℕ) (fps : Option ℚ) : Option Frame :=
  match rawFrame with
  | none => none
  | some data =>
    let frameIndex : ℚ := data.idx.getD (index : ℚ)
    let t := normalizeTimestamp data.ts (some frameIndex) fps
    some { t := t, frame := some frameIndex, detections := data.detections }

/-- Result of `parseMeta`. -/
structure ParsedMeta where
  frames : List Frame
  fps : ℚ

/-- `parseMeta`: parse each raw frame with its index, drop unparsable
frames and frames without a finite timestamp, and stably sort by frame
index (`(a.frame ?? 0) - (b.frame ?? 0)`). -/
def parseMeta (meta : Option RawMetaData) : ParsedMeta :=
  match meta with
  | none => { frames := [], fps := 30 }
  | some m =>
    let fps := m.fps.getD 30
    let parsed := (m.frames.enum.filterMap fun pr => parseFrame pr.2 pr.1 (some fps))
    let kept := parsed.filter (fun f => f.t.isSome)
    { frames := sortByKey (fun f => f.frame.getD 0) kept, fps := fps }

/-! ## Job store (src/store/job_store.js) and orchestrator (src/server.js) -/

/-- The partially-present result object accepted by `buildAnalysisResult`
(`{events?, metrics?, summary?}`, each metrics sub-object either absent or
fully keyed, as at every call site). -/
structure RawMetricsInput where
  swingPlane : Option SwingPlane
  tempo : Option Tempo
  impactStability : Option ImpactStability

/-- Input shape of `buildAnalysisResult`. -/
structure RawResultInput where
  events : Option Events
  metrics : Option RawMetricsInput
  summary : Option String

/-- A fully null-filled structurally-complete result. -/
structure AnalysisResult where
  events : Events
  metrics : Metrics
  summary : String

/-- `EMPTY_EVENTS`. -/
def EMPTY_EVENTS : Events :=
  { addressMs := none, topMs := none, impactMs := none, finishMs := none }

/-- `EMPTY_METRICS`. -/
def EMPTY_METRICS : Metrics :=
  { swingPlane := { label := "neutral", confidence := 0 }
    tempo := { backswingMs := none, downswingMs := none, ratio := none }
    impactStability := { label := "unstable", score := 0 } }

/-- `buildAnalysisResult`: object-spread merge of the defaults with the
(possibly absent) provided pieces; `summary || ''`. -/
def buildAnalysisResult (input : Option RawResultInput) : AnalysisResult :=
  let i := input.getD { events := none, metrics := none, summary := none }
  { events := i.events.getD EMPTY_EVENTS
    metrics :=
      { swingPlane := (i.metrics.bind (·.swingPlane)).getD EMPTY_METRICS.swingPlane
        tempo := (i.metrics.bind (·.tempo)).getD EMPTY_METRICS.tempo
        impactStability := (i.metrics.bind (·.impactStability)).getD EMPTY_METRICS.impactStability }
    summary := i.summary.getD "" }

/-- Re-embedding of a structurally complete result as a
`buildAnalysisResult` input (what the orchestrator stores in `job.result`). -/
def AnalysisResult.toInput (r : AnalysisResult) : RawResultInput :=
  { events := some r.events
    metrics := some
      { swingPlane := some r.metrics.swingPlane
        tempo := some r.metrics.tempo
        impactStability := some r.metrics.impactStability }
    summary := some r.summary }

/-- A job record (`analysis_jobs.json` entries). -/
structure Job where
  jobId : String
  filename : String
  status : String
  createdAt : String
  requestedAt : String
  startedAt : Option String
  finishedAt : Option String
  errorMessage : Option String
  result : Option RawResultInput

/-- `jobStore.getJob`: first record with the identifier, else `null`. -/
def getJob (jobs : List Job) (jobId : String) : Option Job :=
  jobs.find? (fun job => job.jobId == jobId)

/-- `jobStore.upsertJob`: replace the first record with the same
identifier, else append. -/
def upsertJob (jobs : List Job) (job : Job) : List Job :=
  match jobs with
  | [] => [job]
  | j :: rest => if j.jobId == job.jobId then job :: rest else j :: upsertJob rest job

/-- `jobStore.updateJob`: patch the first record with the identifier (the
JS `{...job, ...patch}` merge is modeled by the record-update function each
call site spells out explicitly). -/
def updateJob (jobs : List Job) (jobId : String) (patch : Job → Job) : List Job :=
  match jobs with
  | [] => []
  | j :: rest => if j.jobId == jobId then patch j :: rest else j :: updateJob rest jobId patch

/-- The orchestrator's in-memory state: the persisted job collection and
the `activeAnalysisJobs` in-flight set. -/
structure ServerState where
  jobs : List Job
  active : List String

/-- Split a character list on a separator (the splitting core of JS/Node
string handling, over `List Char` so that it evaluates by reduction). -/
def splitOnChar (sep : Char) (l : List Char) : List (List Char) :=
  match l with
  | [] => [[]]
  | c :: rest =>
    let r := splitOnChar sep rest
    if c == sep then [] :: r
    else
      match r with
      | [] => [[c]]
      | h :: t => (c :: h) :: t

/-- JS `String.prototype.endsWith`, over character lists. -/
def strEndsWith (s suffix : String) : Bool :=
  startsWithChars suffix.data.reverse s.data.reverse

/-- Does the string contain the character? (`includes('/')`-style checks). -/
def strHasChar (s : String) (c : Char) : Bool := s.data.contains c

/-- `path.basename`: last nonempty `/`-separated segment (trailing slashes
dropped), `""` for a bare root path. -/
def lastSegment (s : String) : String :=
  ⟨(((splitOnChar '/' s.data).filter (fun seg => seg ≠ [])).getLast?).getD []⟩

/-- `path.extname`: from the last dot of the basename, unless that dot is
its first character. -/
def extnameOf (s : String) : String :=
  let b := (lastSegment s).data
  let parts := splitOnChar '.' b
  match parts with
  | [] => ""
  | [_] => ""
  | p :: rest =>
    if p = [] ∧ rest.length = 1 then ""
    else ⟨'.' :: (rest.getLast?.getD [])⟩

/-- `path.basename(filename, path.extname(filename))`: the basename with
its extension suffix stripped (kept whole when the basename *is* the
extension, as Node does). -/
def basenameNoExt (s : String) : String :=
  let b := lastSegment s
  let e := extnameOf s
  if e = "" ∨ b = e then b
  else ⟨b.data.take (b.data.length - e.data.length)⟩

/-- `isSupportedVideoExt`. -/
def isSupportedVideoExt (filename : String) : Bool :=
  let ext := toLowerStr (extnameOf filename)
  (ext == ".mp4" || ext == ".mov") && !(strEndsWith filename ".part")

/-- `resolveUploadPath(filename) !== null`: a pure model of
`path.resolve(uploadDir, filename).startsWith(uploadDir + sep)` on POSIX:
the filename must be relative and its `.`/`..`-normalized form must stay
strictly below the upload directory.  (An absolute filename is modeled as
escaping; the upload directory's own absolute location is not modeled.) -/
def resolveUploadPathOk (filename : String) : Bool :=
  if filename = "" then false
  else
    match filename.data with
    | '/' :: _ => false
    | _ =>
      match (splitOnChar '/' filename.data).foldl
        (fun acc seg =>
          acc.bind fun depth =>
            if seg = [] ∨ seg = ['.'] then some depth
            else if seg = ['.', '.'] then (if depth = 0 then none else some (depth - 1))
            else some (depth + 1))
        (some (0 : ℕ)) with
      | some depth => decide (1 ≤ depth)
      | none => false

/-- Request body of `POST /api/analyze/from-file` (only the fields the
handler reads; the `typeof === 'string'` guards are reflected by the
`Option String` type). -/
structure FromFileRequest where
  jobId : Option String
  filename : Option String
  force : Bool

/-- Response of `POST /api/analyze/from-file`. -/
structure PostResponse where
  code : ℕ
  ok : Bool
  jobId : Option String
  status : Option String
  message : Option String
deriving DecidableEq

/-- `providedJobId || (filename ? path.basename(filename, extname) : null)`,
with JS string falsiness: an empty string counts as missing (the handler's
`if (!derivedJobId)` guard then rejects). -/
def reqDerivedJobId (payload : FromFileRequest) : Option String :=
  let fromFilename :=
    match payload.filename with
    | some f => if f = "" then none else some (basenameNoExt f)
    | none => none
  match payload.jobId with
  | some p => if p = "" then fromFilename else some p
  | none => fromFilename

/-- `filename || derivedJobId + '.mp4'` (JS falsiness again). -/
def targetFilenameOf (payload : FromFileRequest) (derivedJobId : String) : String :=
  match payload.filename with
  | some f => if f = "" then derivedJobId ++ ".mp4" else f
  | none => derivedJobId ++ ".mp4"

/-- The fresh job record built by the handler (`createdAt` preserved from
an existing record when nonempty, JS `existing?.createdAt || now`). -/
def freshJob (jobId filename : String) (existing : Option Job) (now : String) : Job :=
  { jobId := jobId
    filename := filename
    status := "pending"
    createdAt :=
      (match existing with
       | some e => if e.createdAt = "" then now else e.createdAt
       | none => now)
    requestedAt := now
    startedAt := none
    finishedAt := none
    errorMessage := none
    result := none }

/-- `POST /api/analyze/from-file`: validation, per-identifier idempotency,
then record replacement, a deferred `setImmediate(runMetaAnalysisJob)`
(returned as the `Bool`: was a pipeline execution scheduled?) and the
synchronous transition to `running`. -/
def postFromFile (s : ServerState) (payload : FromFileRequest) (now : String) :
    ServerState × PostResponse × Bool :=
  match reqDerivedJobId payload with
  | none =>
    (s, { code := 400, ok := false, jobId := none, status := none,
          message := some "jobId is required" }, false)
  | some derivedJobId =>
    if strHasChar derivedJobId '/' || strHasChar derivedJobId '\\' then
      (s, { code := 400, ok := false, jobId := none, status := none,
            message := some "Invalid jobId" }, false)
    else
      let targetFilename := targetFilenameOf payload derivedJobId
      if !isSupportedVideoExt targetFilename then
        (s, { code := 400, ok := false, jobId := none, status := none,
              message := some "Only .mp4/.mov is supported" }, false)
      else if !resolveUploadPathOk targetFilename then
        (s, { code := 400, ok := false, jobId := none, status := none,
              message := some "Invalid file path" }, false)
      else
        let existing := getJob s.jobs derivedJobId
        let idempotent :=
          match existing with
          | some e => !payload.force && (e.status == "pending" || e.status == "running" || e.status == "done")
          | none => false
        let forcedRunning :=
          match existing with
          | some e => e.status == "running" && payload.force
          | none => false
        if idempotent || forcedRunning then
          match existing with
          | some e =>
            (s, { code := 200, ok := true, jobId := some derivedJobId,
                  status := some e.status, message := none }, false)
          | none =>
            -- unreachable: both guards require an existing record
            (s, { code := 200, ok := true, jobId := some derivedJobId,
                  status := none, message := none }, false)
        else
          let job := freshJob derivedJobId targetFilename existing now
          let jobs1 := upsertJob s.jobs job
          let jobs2 := updateJob jobs1 derivedJobId
            (fun j => { j with status := "running", startedAt := some now })
          ({ jobs := jobs2, active := s.active },
            { code := 200, ok := true, jobId := some derivedJobId,
              status := some "running", message := none }, true)

/-- The environment a single `runMetaAnalysisJob` execution runs against:
a timestamp for its `new Date()` calls, whether the upload file resolves
and exists, the (possibly absent / non-object) meta payload, and an
exception optionally thrown inside the `try` block (its `.message`).  An
exception surfacing anywhere in the body is modeled at the body boundary:
the job fields the `catch` block writes overwrite whatever the body wrote
before throwing, so the terminal record does not depend on the throw
position. -/
structure PipelineEnv where
  now : String
  fileOk : Bool
  meta : Option (Option RawMetaData)
  thrown : Option String

/-- The stored failure result `buildAnalysisResult({summary})`. -/
def storedFailureResult (summary : String) : RawResultInput :=
  (buildAnalysisResult (some { events := none, metrics := none, summary := some summary })).toInput

/-- The `try`-block of `runMetaAnalysisJob` after the transition to
`running`: either a thrown exception's message, or the job collection after
the terminal `done`/`failed` write. -/
noncomputable def runPipelineBody (env : PipelineEnv) (jobs : List Job) (jobId : String) :
    Except String (List Job) :=
  match env.thrown with
  | some msg => Except.error msg
  | none =>
    if !env.fileOk then
      Except.ok (updateJob jobs jobId fun j =>
        { j with status := "failed", finishedAt := some env.now,
                 errorMessage := some "Video file not found",
                 result := some (storedFailureResult "Video file not found.") })
    else
      match env.meta with
      | none =>
        Except.ok (updateJob jobs jobId fun j =>
          { j with status := "failed", finishedAt := some env.now,
                   errorMessage := some "Meta file not found",
                   result := some (storedFailureResult "Meta file not available.") })
      | some metaPayload =>
        let frames := (parseMeta metaPayload).frames
        if frames.isEmpty then
          Except.ok (updateJob jobs jobId fun j =>
            { j with status := "failed", finishedAt := some env.now,
                     errorMessage := some "No frame data in meta",
                     result := some (storedFailureResult "No frame data available.") })
        else
          let detected := detectEvents frames
          let computed := calculateMetrics frames detected.events detected.signals
          let result := buildAnalysisResult (some
            { events := some detected.events
              metrics := some
                { swingPlane := some computed.1.swingPlane
                  tempo := some computed.1.tempo
                  impactStability := some computed.1.impactStability }
              summary := some computed.2 })
          Except.ok (updateJob jobs jobId fun j =>
            { j with status := "done", finishedAt := some env.now,
                     errorMessage := none, result := some result.toInput })

/-- `runMetaAnalysisJob`: no-op without a record or while the identifier is
in the in-flight set; otherwise mark `running`, run the body, convert a
thrown exception into a terminal `failed` record (the `catch` block), and
release the in-flight set (the `finally` block).  The function is total:
no exception propagates out of it. -/
noncomputable def runMetaAnalysisJob (env : PipelineEnv) (s : ServerState) (jobId : String) :
    ServerState :=
  match getJob s.jobs jobId with
  | none => s
  | some _ =>
    if s.active.contains jobId then s
    else
      -- `activeAnalysisJobs.add` … `finally { delete }`: net unchanged.
      let jobs1 := updateJob s.jobs jobId fun j =>
        { j with status := "running", startedAt := some env.now, errorMessage := none }
      let jobs2 :=
        match runPipelineBody env jobs1 jobId with
        | Except.ok js => js
        | Except.error msg =>
          updateJob jobs1 jobId fun j =>
            { j with status := "failed", finishedAt := some env.now,
                     errorMessage := some msg,
                     result := some (storedFailureResult "Analysis failed.") }
      { jobs := jobs2, active := s.active }

/-- Response shape of `GET /api/analyze/:jobId` for a job-store record
(the legacy shot-store fallback branch is outside every claim and is
modeled as the 404 the code returns when the shot store also misses). -/
structure JobStatusResponse where
  code : ℕ
  ok : Bool
  jobId : String
  status : Option String
  errorMessage : Option String
  events : Option Events
  metrics : Option Metrics
  summary : Option String
  message : Option String

/-- `respondJobStatus` (job-store branch). -/
def respondJobStatus (s : ServerState) (jobId : String) : JobStatusResponse :=
  match getJob s.jobs jobId with
  | some job =>
    let result := buildAnalysisResult job.result
    let summary :=
      if result.summary ≠ "" then result.summary
      else if job.status = "running" then "Analysis running."
      else if job.status = "pending" then "Analysis pending."
      else if job.status = "failed" then "Analysis failed."
      else ""
    { code := 200, ok := true, jobId := jobId, status := some job.status
      errorMessage := job.errorMessage
      events := some result.events
      metrics := some result.metrics
      summary := some summary
      message := none }
  | none =>
    { code := 404, ok := false, jobId := jobId, status := none, errorMessage := none,
      events := none, metrics := none, summary := none, message := some "Job not found" }

/-! ## Concrete inputs used by scenario conjuncts, counterexamples and witnesses -/

/-- A ball detection at a given bbox corner (center `(bx + 0.01, 0.5)`). -/
def ballDet (bx : ℚ) : Detection :=
  { label := some "ball", classId := none, conf := some 0.9,
    bbox := { x := bx, y := 0.49, w := 0.02, h := 0.02 } }

/-- A clubhead detection with center `(cx + 0.01, cy + 0.01)`. -/
def clubDet (cx cy : ℚ) : Detection :=
  { label := some "clubhead", classId := none, conf := some 0.9,
    bbox := { x := cx, y := cy, w := 0.02, h := 0.02 } }

/-- Spec Scenario A: a normalized ball track with displacement 0.05 between
consecutive samples 10 ms apart. -/
def scenarioAFrames : List Frame :=
  [ { t := some 0, frame := some 0, detections := [ballDet 0.49] },
    { t := some 10, frame := some 1, detections := [ballDet 0.54] } ]

/-- Spec Scenario C: club track timestamps `[0, 800, 1200, 1600]` ms with
minimum `y` at 800 ms and the first threshold crossing at 1200 ms. -/
def scenarioCFrames : List Frame :=
  [ { t := some 0, frame := some 0, detections := [clubDet 0.49 0.49] },
    { t := some 800, frame := some 1, detections := [clubDet 0.49 0.44] },
    { t := some 1200, frame := some 2, detections := [clubDet 0.49 0.55] },
    { t := some 1600, frame := some 3, detections := [clubDet 0.49 0.56] } ]

/-- A single frame carrying one club detection: ball track empty, club
track of length one. -/
def singleClubFrames : List Frame :=
  [ { t := some 0, frame := some 0, detections := [clubDet 0.49 0.49] } ]

/-- Scaling a point's coordinates (timestamps are not coordinates). -/
def scalePoint (c : ℚ) (p : TrackPoint) : TrackPoint := { p with x := p.x * c, y := p.y * c }

/-- Scaling a whole track's coordinates. -/
def scaleTrack (c : ℚ) (track : List TrackPoint) : List TrackPoint :=
  track.map (scalePoint c)

/-- A normalized-coordinate club track with net horizontal displacement
0.01: below the normalized swing-plane threshold 0.02, while its ×1000
image has displacement 10, above the pixel threshold 6. -/
def c3Track : List TrackPoint :=
  [ { t := 0, frame := none, x := 0.5, y := 0.5, conf := none },
    { t := 100, frame := none, x := 0.51, y := 0.5, conf := none } ]

/-- A completed job record. -/
def jobDoneRec : Job :=
  { jobId := "job1", filename := "job1.mp4", status := "done",
    createdAt := "2024-01-01T00:00:00.000Z", requestedAt := "2024-01-01T00:00:00.000Z",
    startedAt := some "2024-01-01T00:00:01.000Z", finishedAt := some "2024-01-01T00:00:02.000Z",
    errorMessage := none, result := none }

/-- A failed job record. -/
def jobFailedRec : Job :=
  { jobId := "job3", filename := "job3.mp4", status := "failed",
    createdAt := "2024-02-01T00:00:00.000Z", requestedAt := "2024-02-01T00:00:00.000Z",
    startedAt := some "2024-02-01T00:00:01.000Z", finishedAt := some "2024-02-01T00:00:02.000Z",
    errorMessage := some "No frame data in meta", result := none }

/-- A pending job record. -/
def jobPendingRec : Job :=
  { jobId := "job2", filename := "job2.mp4", status := "pending",
    createdAt := "2024-03-01T00:00:00.000Z", requestedAt := "2024-03-01T00:00:00.000Z",
    startedAt := none, finishedAt := none, errorMessage := none, result := none }

/-- An environment whose pipeline body throws. -/
def envThrowing : PipelineEnv :=
  { now := "2024-03-01T00:00:05.000Z", fileOk := true, meta := some none,
    thrown := some "boom" }

/-! ## Helper lemmas: job store -/

/-- `updateJob` then `getJob` at the same identifier applies the patch to
the looked-up record, provided the patch keeps the identifier. -/
theorem getJob_updateJob (jobs : List Job) (id : String) (patch : Job → Job)
    (hpatch : ∀ j, (patch j).jobId = j.jobId) :
    getJob (updateJob jobs id patch) id = (getJob jobs id).map patch := by
  induction jobs with
  | nil => rfl
  | cons j rest ih =>
    by_cases h : j.jobId = id
    · simp [updateJob, getJob, List.find?, h, hpatch]
    · have hb : (j.jobId == id) = false := by simp [h]
      simp only [updateJob, hb, Bool.false_eq_true, if_false, getJob, List.find?] at *
      exact ih

/-- A fresh upsert is found by `getJob` at its identifier. -/
theorem getJob_upsertJob_self (jobs : List Job) (job : Job) :
    getJob (upsertJob jobs job) job.jobId = some job := by
  induction jobs with
  | nil => simp [upsertJob, getJob, List.find?]
  | cons j rest ih =>
    by_cases h : j.jobId = job.jobId
    · simp [upsertJob, getJob, List.find?, h]
    · have hb : (j.jobId == job.jobId) = false := by simp [h]
      simp only [upsertJob, hb, Bool.false_eq_true, if_false, getJob, List.find?]
      exact ih

/-! ## Helper lemmas: stable sort -/

theorem length_insertByKey {α : Type} (key : α → ℚ) (p : α) (l : List α) :
    (insertByKey key p l).length = l.length + 1 := by
  induction l with
  | nil => rfl
  | cons q r ih =>
    by_cases h : key p ≤ key q
    · simp [insertByKey, h]
    · simp [insertByKey, h, ih]

theorem length_sortByKey {α : Type} (key : α → ℚ) (l : List α) :
    (sortByKey key l).length = l.length := by
  induction l with
  | nil => rfl
  | cons p r ih => simp [sortByKey, length_insertByKey, ih]

theorem mem_insertByKey {α : Type} (key : α → ℚ) (p a : α) (l : List α) :
    a ∈ insertByKey key p l ↔ a = p ∨ a ∈ l := by
  induction l with
  | nil => simp [insertByKey]
  | cons q r ih =>
    by_cases h : key p ≤ key q
    · simp [insertByKey, h]
    · simp [insertByKey, h, ih]
      tauto

theorem mem_sortByKey {α : Type} (key : α → ℚ) (a : α) (l : List α) :
    a ∈ sortByKey key l ↔ a ∈ l := by
  induction l with
  | nil => simp [sortByKey]
  | cons p r ih => simp [sortByKey, mem_insertByKey, ih]

theorem insertByKey_t_scale (c : ℚ) (p : TrackPoint) (l : List TrackPoint) :
    insertByKey (·.t) (scalePoint c p) (l.map (scalePoint c)) =
      (insertByKey (·.t) p l).map (scalePoint c) := by
  induction l with
  | nil => rfl
  | cons q r ih =>
    by_cases h : p.t ≤ q.t
    · simp [insertByKey, scalePoint, h]
    · simp [insertByKey, scalePoint, h] at ih ⊢
      exact ih

theorem sortByKey_t_scale (c : ℚ) (l : List TrackPoint) :
    sortByKey (·.t) (l.map (scalePoint c)) = (sortByKey (·.t) l).map (scalePoint c) := by
  induction l with
  | nil => rfl
  | cons p r ih => simp [sortByKey, ih, insertByKey_t_scale]

/-! ## Helper lemmas: coordinate-domain inference -/

theorem foldl_maxAbs_le_iff (l : List TrackPoint) (a b : ℚ) :
    l.foldl (fun m p => max m (max |p.x| |p.y|)) a ≤ b ↔
      a ≤ b ∧ ∀ p ∈ l, max |p.x| |p.y| ≤ b := by
  induction l generalizing a with
  | nil => simp
  | cons q r ih =>
    simp only [List.foldl_cons, ih, max_le_iff, List.mem_cons]
    constructor
    · rintro ⟨⟨h1, h2⟩, h3⟩
      exact ⟨h1, fun p hp => hp.elim (fun he => he ▸ h2) (h3 p)⟩
    · rintro ⟨h1, h2⟩
      exact ⟨⟨h1, h2 q (Or.inl rfl)⟩, fun p hp => h2 p (Or.inr hp)⟩

theorem lt_foldl_maxAbs_iff (l : List TrackPoint) (a b : ℚ) :
    b < l.foldl (fun m p => max m (max |p.x| |p.y|)) a ↔
      b < a ∨ ∃ p ∈ l, b < max |p.x| |p.y| := by
  rw [← not_iff_not]
  push_neg
  rw [foldl_maxAbs_le_iff]

theorem inferNormalized_iff (points : List TrackPoint) :
    inferNormalized points = true ↔
      (∃ p ∈ points, 0 < |p.x| ∨ 0 < |p.y|) ∧ ∀ p ∈ points, |p.x| ≤ 3/2 ∧ |p.y| ≤ 3/2 := by
  simp only [inferNormalized, maxAbsCoord, Bool.and_eq_true, decide_eq_true_eq]
  rw [lt_foldl_maxAbs_iff, foldl_maxAbs_le_iff]
  simp only [lt_self_iff_false, false_or, lt_max_iff, max_le_iff]
  constructor
  · rintro ⟨h1, _, h2⟩
    exact ⟨h1, h2⟩
  · rintro ⟨h1, h2⟩
    exact ⟨h1, by norm_num, h2⟩

theorem inferNormalized_sortByKey (key : TrackPoint → ℚ) (l : List TrackPoint) :
    inferNormalized (sortByKey key l) = inferNormalized l := by
  have h1 := inferNormalized_iff (sortByKey key l)
  have h2 := inferNormalized_iff l
  cases ha : inferNormalized (sortByKey key l) <;> cases hb : inferNormalized l
  · rfl
  · exfalso
    rw [ha] at h1
    rw [hb] at h2
    have := h2.mp rfl
    apply Bool.false_ne_true
    apply h1.mpr
    constructor
    · obtain ⟨p, hp, hc⟩ := this.1
      exact ⟨p, (mem_sortByKey key p l).mpr hp, hc⟩
    · intro p hp
      exact this.2 p ((mem_sortByKey key p l).mp hp)
  · exfalso
    rw [ha] at h1
    rw [hb] at h2
    have := h1.mp rfl
    apply Bool.false_ne_true
    apply h2.mpr
    constructor
    · obtain ⟨p, hp, hc⟩ := this.1
      exact ⟨p, (mem_sortByKey key p l).mp hp, hc⟩
    · intro p hp
      exact this.2 p ((mem_sortByKey key p l).mpr hp)
  · rfl

/-- Claim C8: a point set is classified "normalized" iff its maximum
absolute coordinate is strictly positive and at most 1.5; otherwise —
including the empty set and all-origin sets — it is "pixel". -/
theorem c8_domain_classification :
    (∀ points : List TrackPoint,
      inferNormalized points = true ↔
        (∃ p ∈ points, 0 < |p.x| ∨ 0 < |p.y|) ∧
          ∀ p ∈ points, |p.x| ≤ 3/2 ∧ |p.y| ≤ 3/2) ∧
    inferNormalized [] = false ∧
    (∀ points : List TrackPoint, (∀ p ∈ points, p.x = 0 ∧ p.y = 0) →
      inferNormalized points = false) := by
  refine ⟨inferNormalized_iff, rfl, ?_⟩
  intro points h
  cases hb : inferNormalized points
  · rfl
  · exfalso
    obtain ⟨⟨p, hp, hc⟩, -⟩ := (inferNormalized_iff points).mp hb
    obtain ⟨hx, hy⟩ := h p hp
    rw [hx, hy] at hc
    simp at hc

/-! ## Helper lemmas: impact detection -/

/-- The loop of `detectImpactFromTrack` computes: the earliest crossing
pair's point if one exists, else the speed check on the running best. -/
theorem detectImpactAux_eq (dT sT : ℚ) (rest : List TrackPoint) :
    ∀ (prev : TrackPoint) (best : Option (TrackPoint × ℚ × ℚ)),
    detectImpactAux dT sT prev rest best =
      (match (validPairs prev rest).find? (crossesB dT sT) with
       | some pr => some pr.2
       | none =>
         match (validPairs prev rest).foldl stepBest best with
         | some (bp, bsq, bdt) => if bsq ≥ (sT * bdt) ^ 2 then some bp else none
         | none => none) := by
  induction rest with
  | nil =>
    intro prev best
    simp only [validPairs, List.find?_nil, List.foldl_nil]
    rfl
  | cons curr rest ih =>
    intro prev best
    by_cases hdt : 0 < curr.t - prev.t
    · have hvp : validPairs prev (curr :: rest) = (prev, curr) :: validPairs curr rest := by
        simp [validPairs, hdt]
      by_cases hcross :
          ((curr.x - prev.x) ^ 2 + (curr.y - prev.y) ^ 2 ≥ dT ^ 2 ∨
            (curr.x - prev.x) ^ 2 + (curr.y - prev.y) ^ 2 ≥ (sT * (curr.t - prev.t)) ^ 2)
      · have hcb : crossesB dT sT (prev, curr) = true := by
          simp only [crossesB, pairSq, pairDt, Bool.or_eq_true, decide_eq_true_eq]
          exact hcross
        rw [hvp]
        rw [List.find?_cons_of_pos _ hcb]
        simp [detectImpactAux, hdt, hcross]
      · have hcb : crossesB dT sT (prev, curr) = false := by
          simp only [crossesB, pairSq, pairDt, Bool.or_eq_true, decide_eq_true_eq,
            Bool.or_eq_false_iff, decide_eq_false_iff_not]
          push_neg at hcross
          exact ⟨by simpa using hcross.1, by simpa using hcross.2⟩
        rw [hvp]
        rw [List.find?_cons_of_neg _ (by simp [hcb])]
        rw [List.foldl_cons]
        have hstep : stepBest best (prev, curr) =
            (match best with
             | none => some (curr, (curr.x - prev.x) ^ 2 + (curr.y - prev.y) ^ 2, curr.t - prev.t)
             | some (bp, bsq, bdt) =>
               if ((curr.x - prev.x) ^ 2 + (curr.y - prev.y) ^ 2) * bdt ^ 2 > bsq * (curr.t - prev.t) ^ 2 then
                 some (curr, (curr.x - prev.x) ^ 2 + (curr.y - prev.y) ^ 2, curr.t - prev.t)
               else some (bp, bsq, bdt)) := by
          simp [stepBest, pairSq, pairDt]
        simp only [detectImpactAux, hdt, if_true, hcross, if_false]
        rw [← hstep, ih curr (stepBest best (prev, curr))]
    · have hvp : validPairs prev (curr :: rest) = validPairs curr rest := by
        simp [validPairs, hdt]
      simp only [detectImpactAux, hdt, if_false]
      rw [ih curr best, hvp]

/-- `detectImpactFromTrack` coincides with the spec-side earliest-crossing
resolution. -/
theorem detectImpactFromTrack_eq_spec (track : List TrackPoint) (dT sT : ℚ) :
    detectImpactFromTrack track dT sT = specImpact track dT sT := by
  match track with
  | [] => rfl
  | [p] => rfl
  | p :: q :: rest =>
    show detectImpactAux dT sT p (q :: rest) none = _
    rw [detectImpactAux_eq]
    rfl

/-- A track with fewer than 2 points never resolves an impact. -/
theorem specImpact_short (track : List TrackPoint) (dT sT : ℚ) (h : track.length < 2) :
    specImpact track dT sT = none := by
  match track with
  | [] => rfl
  | [p] => rfl
  | p :: q :: rest => simp at h; omega

/-- The ball-then-club preference with the `hasBall`/`hasClub` length gates
equals the ungated spec-side preference (short tracks resolve to `none`
either way). -/
theorem impactPairOf_eq_spec (ballTrack clubTrack : List TrackPoint) (dT sT : ℚ) :
    impactPairOf ballTrack clubTrack dT sT
        (decide (2 ≤ ballTrack.length)) (decide (2 ≤ clubTrack.length)) =
      (match specImpact ballTrack dT sT with
       | some p => some (p, "ball")
       | none =>
         match specImpact clubTrack (dT * 2) sT with
         | some p => some (p, "club")
         | none => none) := by
  unfold impactPairOf
  by_cases hb : 2 ≤ ballTrack.length
  · have hb' : decide (2 ≤ ballTrack.length) = true := decide_eq_true hb
    simp only [hb', if_true, detectImpactFromTrack_eq_spec]
    cases specImpact ballTrack dT sT with
    | some p => rfl
    | none =>
      by_cases hc : 2 ≤ clubTrack.length
      · simp [hc, detectImpactFromTrack_eq_spec]
      · have : specImpact clubTrack (dT * 2) sT = none :=
          specImpact_short _ _ _ (by omega)
        simp [hc, this]
  · have hsb : specImpact ballTrack dT sT = none := specImpact_short _ _ _ (by omega)
    have hb' : decide (2 ≤ ballTrack.length) = false := decide_eq_false hb
    simp only [hb', Bool.false_eq_true, if_false, hsb]
    by_cases hc : 2 ≤ clubTrack.length
    · simp [hc, detectImpactFromTrack_eq_spec]
    · have : specImpact clubTrack (dT * 2) sT = none :=
        specImpact_short _ _ _ (by omega)
      simp [hc, this]

/-- Projection of `detectEvents` at `impactMs` is definitionally the
rounded timestamp of the selected impact pair. -/
theorem detectEvents_impactMs (frames : List Frame) :
    (detectEvents frames).events.impactMs =
      (((impactPairOf (buildTrack frames isBallDetection)
            (buildTrack frames isClubheadDetection)
            (if inferNormalized
                (buildTrack frames isClubheadDetection ++ buildTrack frames isBallDetection)
             then 0.04 else 8)
            (if inferNormalized
                (buildTrack frames isClubheadDetection ++ buildTrack frames isBallDetection)
             then 0.0008 else 0.02)
            (decide (2 ≤ (buildTrack frames isBallDetection).length))
            (decide (2 ≤ (buildTrack frames isClubheadDetection).length))).map
          Prod.fst).map (·.t)).map (fun q => ((jsRound q : ℤ) : ℚ)) := rfl

/-- Projection of `detectEvents` at `impactSource`. -/
theorem detectEvents_impactSource (frames : List Frame) :
    (detectEvents frames).signals.impactSource =
      ((impactPairOf (buildTrack frames isBallDetection)
            (buildTrack frames isClubheadDetection)
            (if inferNormalized
                (buildTrack frames isClubheadDetection ++ buildTrack frames isBallDetection)
             then 0.04 else 8)
            (if inferNormalized
                (buildTrack frames isClubheadDetection ++ buildTrack frames isBallDetection)
             then 0.0008 else 0.02)
            (decide (2 ≤ (buildTrack frames isBallDetection).length))
            (decide (2 ≤ (buildTrack frames isClubheadDetection).length))).map
          Prod.snd).getD "none" := rfl

/-- Collapsing the three maps over the impact pair into one. -/
theorem option_pair_maps (o : Option (TrackPoint × String)) :
    (((o.map Prod.fst).map (·.t)).map (fun q => ((jsRound q : ℤ) : ℚ))) =
      o.map (fun pr => ((jsRound pr.1.t : ℤ) : ℚ)) := by
  cases o <;> rfl

/-- Claim C1: `detectEvents` resolves impact as the earliest
threshold-crossing point (displacement or instantaneous speed over a
positive time delta), preferring the ball track, falling back to the club
track with a doubled distance threshold; with no crossing, the single
highest-speed point serves as impact only if it meets the non-relaxed
speed threshold (else the impact is null).  In particular, Scenario A —
displacement 0.05 between normalized ball samples 10 ms apart — yields the
impact at that sample with source `"ball"`. -/
theorem c1_impact_resolution :
    (∀ (track : List TrackPoint) (distanceThreshold speedThreshold : ℚ),
      detectImpactFromTrack track distanceThreshold speedThreshold =
        specImpact track distanceThreshold speedThreshold) ∧
    (∀ frames : List Frame,
      let ballTrack := buildTrack frames isBallDetection
      let clubTrack := buildTrack frames isClubheadDetection
      let normalized := inferNormalized (clubTrack ++ ballTrack)
      let distanceThreshold : ℚ := if normalized then 0.04 else 8
      let speedThreshold : ℚ := if normalized then 0.0008 else 0.02
      let specRes :=
        match specImpact ballTrack distanceThreshold speedThreshold with
        | some p => some (p, "ball")
        | none =>
          match specImpact clubTrack (distanceThreshold * 2) speedThreshold with
          | some p => some (p, "club")
          | none => none
      (detectEvents frames).events.impactMs =
        specRes.map (fun pr => ((jsRound pr.1.t : ℤ) : ℚ)) ∧
      (detectEvents frames).signals.impactSource = (specRes.map Prod.snd).getD "none") ∧
    ((detectEvents scenarioAFrames).events.impactMs = some 10 ∧
      (detectEvents scenarioAFrames).signals.impactSource = "ball") := by
  refine ⟨detectImpactFromTrack_eq_spec, ?_, by with_unfolding_all decide⟩
  intro frames
  constructor
  · rw [detectEvents_impactMs, impactPairOf_eq_spec, option_pair_maps]
  · rw [detectEvents_impactSource, impactPairOf_eq_spec]

/-- Claim C4: per-frame timestamp resolution priority — explicit timestamp
(sub-1000 values scaled from seconds to milliseconds), then frame-index
over a positive fps, then the 30 fps default; frames with no resolvable
timestamp are dropped, so the normalizer's output is never longer than its
input and every output frame has a timestamp. -/
theorem c4_timestamp_resolution :
    (∀ (t : ℚ) (frameIndex fps : Option ℚ),
      normalizeTimestamp (some t) frameIndex fps =
        some (if t < 1000 then t * 1000 else t)) ∧
    (∀ fi fps : ℚ,
      normalizeTimestamp none (some fi) (some fps) =
        some (if 0 < fps then fi / fps * 1000 else fi * (1000 / 30))) ∧
    (∀ fi : ℚ, normalizeTimestamp none (some fi) none = some (fi * (1000 / 30))) ∧
    (∀ fps : Option ℚ, normalizeTimestamp none none fps = none) ∧
    (∀ meta : Option RawMetaData,
      (parseMeta meta).frames.length ≤
        (match meta with | none => ([] : List RawFrame) | some m => m.frames).length ∧
      ∀ f ∈ (parseMeta meta).frames, f.t.isSome = true) := by
  refine ⟨fun t fi fps => rfl, ?_, fun fi => rfl, fun fps => rfl, ?_⟩
  · intro fi fps
    by_cases h : 0 < fps <;> simp [normalizeTimestamp, h]
  intro meta
  cases meta with
  | none => exact ⟨Nat.zero_le _, by intro f hf; simp [parseMeta] at hf⟩
  | some m =>
    constructor
    · simp only [parseMeta, length_sortByKey]
      calc ((m.frames.enum.filterMap fun pr =>
              parseFrame pr.2 pr.1 (some (m.fps.getD 30))).filter fun f => f.t.isSome).length
          ≤ (m.frames.enum.filterMap fun pr =>
              parseFrame pr.2 pr.1 (some (m.fps.getD 30))).length := List.length_filter_le _ _
        _ ≤ m.frames.enum.length := List.length_filterMap_le _ _
        _ = m.frames.length := List.enum_length
    · intro f hf
      simp only [parseMeta] at hf
      rw [mem_sortByKey] at hf
      exact (List.mem_filter.mp hf).2

/-- Claim C5: `computeTempo` yields `backswingMs = top − address`,
`downswingMs = impact − top` (clamped at 0) and a two-decimal ratio exactly
when all three events are present and both durations are nonzero, and the
all-null triple otherwise; Scenario C (club timestamps 0/800/1200/1600,
minimum y at 800, impact at 1200) gives `topMs = 800` and tempo
`{800, 400, 2.0}`. -/
theorem c5_tempo :
    (∀ (events : Events) (a t i : ℚ),
      events.addressMs = some a → events.topMs = some t → events.impactMs = some i →
      0 < t - a → 0 < i - t →
      computeTempo events =
        { backswingMs := some ((jsRound (t - a) : ℤ) : ℚ)
          downswingMs := some ((jsRound (i - t) : ℤ) : ℚ)
          ratio := some (toFixed2 ((t - a) / (i - t))) }) ∧
    (∀ events : Events,
      events.addressMs = none ∨ events.topMs = none ∨ events.impactMs = none →
      computeTempo events = { backswingMs := none, downswingMs := none, ratio := none }) ∧
    (∀ (events : Events) (a t i : ℚ),
      events.addressMs = some a → events.topMs = some t → events.impactMs = some i →
      (max 0 (t - a) = 0 ∨ max 0 (i - t) = 0) →
      computeTempo events = { backswingMs := none, downswingMs := none, ratio := none }) ∧
    ((detectEvents scenarioCFrames).events =
        { addressMs := some 0, topMs := some 800, impactMs := some 1200,
          finishMs := some 1600 } ∧
      computeTempo (detectEvents scenarioCFrames).events =
        { backswingMs := some 800, downswingMs := some 400, ratio := some 2 }) := by
  refine ⟨?_, ?_, ?_, by with_unfolding_all decide⟩
  · intro e a t i ha ht hi h1 h2
    simp only [computeTempo, ha, ht, hi]
    rw [max_eq_right h1.le, max_eq_right h2.le]
    rw [if_neg (fun hc => hc.elim (fun h => h1.ne' h) (fun h => h2.ne' h))]
  · intro e h
    rcases h with h | h | h
    · simp [computeTempo, h]
    · cases hca : e.addressMs <;> simp [computeTempo, h, hca]
    · cases hca : e.addressMs <;> cases hct : e.topMs <;> simp [computeTempo, h, hca, hct]
  · intro e a t i ha ht hi h
    simp only [computeTempo, ha, ht, hi]
    rw [if_pos h]

/-- Witness for C5: a concrete event triple with both durations positive. -/
theorem c5_tempo_witness :
    (0 : ℚ) < 300 - 0 ∧ (0 : ℚ) < 400 - 300 ∧
    computeTempo
        { addressMs := some 0, topMs := some 300, impactMs := some 400, finishMs := none } =
      { backswingMs := some 300, downswingMs := some 100, ratio := some 3 } := by
  refine ⟨by norm_num, by norm_num, ?_⟩
  rw [c5_tempo.1 _ 0 300 400 rfl rfl rfl (by norm_num) (by norm_num)]
  with_unfolding_all decide

/-- Counterexample to claim C2 as stated: a single frame with one club
detection has both tracks shorter than 2 points, yet `detectEvents` does
not return all four events null — `addressMs`, `topMs` and `finishMs` are
boundary/track derived and resolve to 0. -/
theorem c2_counterexample :
    (buildTrack singleClubFrames isBallDetection).length < 2 ∧
    (buildTrack singleClubFrames isClubheadDetection).length < 2 ∧
    ¬((detectEvents singleClubFrames).events.addressMs = none ∧
      (detectEvents singleClubFrames).events.topMs = none ∧
      (detectEvents singleClubFrames).events.impactMs = none ∧
      (detectEvents singleClubFrames).events.finishMs = none) ∧
    (detectEvents singleClubFrames).events.topMs = some 0 := by
  with_unfolding_all decide

/-- Claim C2 (amended): when both tracks have fewer than 2 points,
`impactMs` is null (all four events are null only for an empty frame
sequence — `addressMs`/`finishMs` come from the first/last frame and
`topMs` from any nonempty club track), and the metrics degrade to
`neutral`/confidence 0 and `unstable`/score 0. -/
theorem c2_amended :
    ∀ (frames : List Frame) (signals : Signals),
      (buildTrack frames isBallDetection).length < 2 →
      (buildTrack frames isClubheadDetection).length < 2 →
      (detectEvents frames).events.impactMs = none ∧
      (frames = [] →
        (detectEvents frames).events =
          { addressMs := none, topMs := none, impactMs := none, finishMs := none }) ∧
      (calculateMetrics frames (detectEvents frames).events signals).1.swingPlane =
        { label := "neutral", confidence := 0 } ∧
      (calculateMetrics frames (detectEvents frames).events signals).1.impactStability.label =
        "unstable" ∧
      (calculateMetrics frames (detectEvents frames).events signals).1.impactStability.score =
        0 := by
  intro frames signals hb hc
  have hbd : decide (2 ≤ (buildTrack frames isBallDetection).length) = false :=
    decide_eq_false (by omega)
  have hcd : decide (2 ≤ (buildTrack frames isClubheadDetection).length) = false :=
    decide_eq_false (by omega)
  refine ⟨?_, ?_, ?_, ?_, ?_⟩
  · rw [detectEvents_impactMs, hbd, hcd]
    rfl
  · rintro rfl
    rfl
  · have e1 : (calculateMetrics frames (detectEvents frames).events signals).1.swingPlane =
        computeSwingPlane (buildTrack frames isClubheadDetection)
          (detectEvents frames).events.impactMs := rfl
    rw [e1]
    simp only [computeSwingPlane]
    rw [if_pos hc]
  · have e1 : (calculateMetrics frames (detectEvents frames).events signals).1.impactStability =
        computeImpactStability (buildTrack frames isClubheadDetection)
          (detectEvents frames).events.impactMs := rfl
    rw [e1]
    simp only [computeImpactStability]
    rw [if_pos hc]
  · have e1 : (calculateMetrics frames (detectEvents frames).events signals).1.impactStability =
        computeImpactStability (buildTrack frames isClubheadDetection)
          (detectEvents frames).events.impactMs := rfl
    rw [e1]
    simp only [computeImpactStability]
    rw [if_pos hc]

/-- Witness for the amended C2 at the concrete single-club-frame input. -/
theorem c2_witness :
    (buildTrack singleClubFrames isBallDetection).length < 2 ∧
    (buildTrack singleClubFrames isClubheadDetection).length < 2 ∧
    (detectEvents singleClubFrames).events.impactMs = none ∧
    (calculateMetrics singleClubFrames (detectEvents singleClubFrames).events
        { hasBall := false, hasClub := false, impactSource := "none" }).1.swingPlane =
      { label := "neutral", confidence := 0 } := by
  have h := c2_amended singleClubFrames
    { hasBall := false, hasClub := false, impactSource := "none" }
    (by with_unfolding_all decide) (by with_unfolding_all decide)
  exact ⟨by with_unfolding_all decide, by with_unfolding_all decide, h.1, h.2.2.1⟩

/-! ## Helper lemmas: coordinate scaling of the metric computations -/

theorem scaleTrack_length (c : ℚ) (track : List TrackPoint) :
    (scaleTrack c track).length = track.length := by
  simp [scaleTrack]

theorem metricWindow_scale (c : ℚ) (track : List TrackPoint) (impactMs : Option ℚ)
    (radius : ℚ) :
    metricWindow (scaleTrack c track) impactMs radius =
      scaleTrack c (metricWindow track impactMs radius) := by
  cases impactMs with
  | none => rfl
  | some i =>
    simp only [metricWindow, scaleTrack]
    have hfil : (track.map (scalePoint c)).filter (fun point => |point.t - i| ≤ radius) =
        (track.filter (fun point => |point.t - i| ≤ radius)).map (scalePoint c) := by
      rw [List.filter_map]
      rfl
    rw [hfil, List.length_map]
    by_cases h : (track.filter fun point => |point.t - i| ≤ radius).length < 2 <;> simp [h]

theorem metricWindow_len (track : List TrackPoint) (impactMs : Option ℚ) (radius : ℚ)
    (h : 2 ≤ track.length) : 2 ≤ (metricWindow track impactMs radius).length := by
  cases impactMs with
  | none => exact h
  | some i =>
    simp only [metricWindow]
    by_cases hf : (track.filter fun point => |point.t - i| ≤ radius).length < 2
    · simp [hf, h]
    · simp only [hf, if_false]
      omega

theorem sum_map_mul_const (l : List ℚ) (f : ℚ → ℚ) (c : ℚ) :
    (l.map fun v => f v * c).sum = (l.map f).sum * c := by
  induction l with
  | nil => simp
  | cons a t ih =>
    simp only [List.map_cons, List.sum_cons, ih]
    ring

theorem meanOf_mul_const (l : List ℚ) (c : ℚ) : meanOf (l.map (· * c)) = meanOf l * c := by
  simp only [meanOf, List.length_map]
  rw [show (l.map (· * c)) = l.map (fun v => v * c) from rfl,
    sum_map_mul_const l (fun v => v) c]
  rw [List.map_id']
  rw [mul_div_right_comm]

theorem varOf_mul_const (l : List ℚ) (c : ℚ) : varOf (l.map (· * c)) = c ^ 2 * varOf l := by
  simp only [varOf, meanOf_mul_const, List.map_map, List.length_map]
  have hcomp : ((fun v => (v - meanOf l * c) ^ 2) ∘ (· * c)) =
      fun v => ((v - meanOf l) ^ 2) * c ^ 2 := by
    funext v
    simp only [Function.comp_apply]
    ring
  rw [hcomp, sum_map_mul_const l (fun v => (v - meanOf l) ^ 2) (c ^ 2)]
  ring

theorem stabilitySpreadSq_scale (c : ℚ) (w : List TrackPoint) :
    stabilitySpreadSq (scaleTrack c w) = c ^ 2 * stabilitySpreadSq w := by
  simp only [stabilitySpreadSq, scaleTrack, List.map_map]
  have hx : (w.map ((fun p : TrackPoint => p.x) ∘ scalePoint c)) =
      (w.map (fun p : TrackPoint => p.x)).map (· * c) := by
    rw [List.map_map]
    rfl
  have hy : (w.map ((fun p : TrackPoint => p.y) ∘ scalePoint c)) =
      (w.map (fun p : TrackPoint => p.y)).map (· * c) := by
    rw [List.map_map]
    rfl
  rw [hx, hy, varOf_mul_const, varOf_mul_const]
  ring

/-- Label of `computeSwingPlane` on a ≥2-point track, in terms of the
sorted window. -/
theorem computeSwingPlane_label_eq (track : List TrackPoint) (impactMs : Option ℚ)
    (f : TrackPoint) (rest : List TrackPoint) (h : ¬track.length < 2)
    (hs : sortByKey (·.t) (metricWindow track impactMs 250) = f :: rest) :
    (computeSwingPlane track impactMs).label =
      (if ((f :: rest).getLast?.getD f).x - f.x <
          -(if inferNormalized (f :: rest) then (0.02 : ℚ) else 6) then "outside-in"
       else if ((f :: rest).getLast?.getD f).x - f.x >
          (if inferNormalized (f :: rest) then (0.02 : ℚ) else 6) then "inside-out"
       else "neutral") := by
  simp only [computeSwingPlane, hs]
  rw [if_neg h]

/-- Label of `computeImpactStability` on a ≥2-point track, in terms of the
squared-spread comparison. -/
theorem computeImpactStability_label_eq (track : List TrackPoint) (impactMs : Option ℚ)
    (h : ¬track.length < 2) :
    (computeImpactStability track impactMs).label =
      (if stabilitySpreadSq (metricWindow track impactMs 200) ≤
          (2/5 * (if inferNormalized (metricWindow track impactMs 200) then (0.05 : ℚ) else 12)) ^ 2
       then "stable" else "unstable") := by
  simp only [computeImpactStability]
  rw [if_neg h]

/-- Counterexample to claim C3 as stated: the same relative motion (net
horizontal displacement 0.01) classified against the normalized threshold
0.02 is `neutral`, while its ×1000 pixel image (displacement 10 against
threshold 6) is `inside-out` — the two coordinate expressions do not
produce the same `swingPlane.label`. -/
theorem c3_counterexample :
    (∀ p ∈ c3Track, 0 ≤ p.x ∧ p.x ≤ 1 ∧ 0 ≤ p.y ∧ p.y ≤ 1) ∧
    (computeSwingPlane c3Track (some 0)).label = "neutral" ∧
    (computeSwingPlane (scaleTrack 1000 c3Track) (some 0)).label = "inside-out" := by
  refine ⟨by with_unfolding_all decide, ?_, ?_⟩
  · have h := computeSwingPlane_label_eq c3Track (some 0)
      { t := 0, frame := none, x := 0.5, y := 0.5, conf := none }
      [{ t := 100, frame := none, x := 0.51, y := 0.5, conf := none }]
      (by with_unfolding_all decide) (by with_unfolding_all decide)
    rw [h]
    with_unfolding_all decide
  · have h := computeSwingPlane_label_eq (scaleTrack 1000 c3Track) (some 0)
      { t := 0, frame := none, x := 500, y := 500, conf := none }
      [{ t := 100, frame := none, x := 510, y := 500, conf := none }]
      (by with_unfolding_all decide) (by with_unfolding_all decide)
    rw [h]
    with_unfolding_all decide

/-- Claim C3 (amended): with the normalized track's metric windows
classified "normalized" and the ×1000 track's windows classified "pixel",
scaling preserves every non-neutral `swingPlane.label`, and a "stable"
`impactStability.label` of the pixel expression implies "stable" for the
normalized one; exact equality of labels fails in general because the
pixel thresholds (6 and 12·0.4) are not the ×1000 images of the normalized
ones (0.02 and 0.05·0.4) — see the counterexample. -/
theorem c3_amended :
    ∀ (track : List TrackPoint) (impactMs : Option ℚ),
      inferNormalized (metricWindow track impactMs 250) = true →
      inferNormalized (metricWindow (scaleTrack 1000 track) impactMs 250) = false →
      inferNormalized (metricWindow track impactMs 200) = true →
      inferNormalized (metricWindow (scaleTrack 1000 track) impactMs 200) = false →
      ((computeSwingPlane track impactMs).label = "inside-out" →
        (computeSwingPlane (scaleTrack 1000 track) impactMs).label = "inside-out") ∧
      ((computeSwingPlane track impactMs).label = "outside-in" →
        (computeSwingPlane (scaleTrack 1000 track) impactMs).label = "outside-in") ∧
      ((computeImpactStability (scaleTrack 1000 track) impactMs).label = "stable" →
        (computeImpactStability track impactMs).label = "stable") := by
  intro track impactMs h1 h2 h3 h4
  by_cases hlen : track.length < 2
  · have hlen2 : (scaleTrack 1000 track).length < 2 := by
      rw [scaleTrack_length]; exact hlen
    refine ⟨?_, ?_, ?_⟩
    · intro h
      simp only [computeSwingPlane] at h
      rw [if_pos hlen] at h
      exact absurd h (by decide)
    · intro h
      simp only [computeSwingPlane] at h
      rw [if_pos hlen] at h
      exact absurd h (by decide)
    · intro h
      simp only [computeImpactStability] at h
      rw [if_pos hlen2] at h
      exact absurd h (by decide)
  · have hlen2 : ¬(scaleTrack 1000 track).length < 2 := by
      rw [scaleTrack_length]; exact hlen
    have hle : 2 ≤ track.length := by omega
    -- decompose the sorted swing-plane window
    have hw2 : 2 ≤ (sortByKey (·.t) (metricWindow track impactMs 250)).length := by
      rw [length_sortByKey]
      exact metricWindow_len _ _ _ hle
    obtain ⟨f, rest, hs⟩ : ∃ f rest,
        sortByKey (·.t) (metricWindow track impactMs 250) = f :: rest := by
      cases hsw : sortByKey (·.t) (metricWindow track impactMs 250) with
      | nil => rw [hsw] at hw2; simp at hw2
      | cons f rest => exact ⟨f, rest, rfl⟩
    have hssort : sortByKey (·.t) (metricWindow (scaleTrack 1000 track) impactMs 250) =
        scalePoint 1000 f :: rest.map (scalePoint 1000) := by
      rw [metricWindow_scale]
      rw [show scaleTrack 1000 (metricWindow track impactMs 250) =
        (metricWindow track impactMs 250).map (scalePoint 1000) from rfl]
      rw [sortByKey_t_scale, hs]
      rfl
    have hnorm1 : inferNormalized (f :: rest) = true := by
      rw [← hs, inferNormalized_sortByKey]
      exact h1
    have hnormS : inferNormalized (scalePoint 1000 f :: rest.map (scalePoint 1000)) = false := by
      rw [← hssort, inferNormalized_sortByKey]
      exact h2
    have hlast : ((scalePoint 1000 f :: rest.map (scalePoint 1000)).getLast?.getD
        (scalePoint 1000 f)) = scalePoint 1000 ((f :: rest).getLast?.getD f) := by
      rw [show (scalePoint 1000 f :: rest.map (scalePoint 1000)) =
        ((f :: rest).map (scalePoint 1000)) from rfl]
      rw [List.getLast?_map]
      cases (f :: rest).getLast? <;> rfl
    have eL := computeSwingPlane_label_eq track impactMs f rest hlen hs
    have eR := computeSwingPlane_label_eq (scaleTrack 1000 track) impactMs
      (scalePoint 1000 f) (rest.map (scalePoint 1000)) hlen2 hssort
    rw [hlast] at eR
    have hxL : (scalePoint 1000 ((f :: rest).getLast?.getD f)).x -
        (scalePoint 1000 f).x = (((f :: rest).getLast?.getD f).x - f.x) * 1000 := by
      simp only [scalePoint]
      ring
    rw [hxL] at eR
    simp only [hnorm1, if_true] at eL
    simp only [hnormS, Bool.false_eq_true, if_false] at eR
    refine ⟨?_, ?_, ?_⟩
    · intro h
      rw [eL] at h
      by_cases c1 : ((f :: rest).getLast?.getD f).x - f.x < -(0.02 : ℚ)
      · rw [if_pos c1] at h
        exact absurd h (by decide)
      · rw [if_neg c1] at h
        by_cases c2 : ((f :: rest).getLast?.getD f).x - f.x > (0.02 : ℚ)
        · rw [eR]
          have h02 : (0.02 : ℚ) = 1/50 := by norm_num
          rw [h02] at c2
          rw [if_neg (by linarith), if_pos (by linarith)]
        · rw [if_neg c2] at h
          exact absurd h (by decide)
    · intro h
      rw [eL] at h
      by_cases c1 : ((f :: rest).getLast?.getD f).x - f.x < -(0.02 : ℚ)
      · rw [eR]
        have h02 : (0.02 : ℚ) = 1/50 := by norm_num
        rw [h02] at c1
        rw [if_pos (by linarith)]
      · rw [if_neg c1] at h
        by_cases c2 : ((f :: rest).getLast?.getD f).x - f.x > (0.02 : ℚ)
        · rw [if_pos c2] at h
          exact absurd h (by decide)
        · rw [if_neg c2] at h
          exact absurd h (by decide)
    · intro h
      have eSR := computeImpactStability_label_eq (scaleTrack 1000 track) impactMs hlen2
      have eSL := computeImpactStability_label_eq track impactMs hlen
      rw [eSR] at h
      simp only [h4, Bool.false_eq_true, if_false] at h
      rw [metricWindow_scale, stabilitySpreadSq_scale] at h
      rw [eSL]
      simp only [h3, if_true]
      by_cases hc : (1000 : ℚ) ^ 2 * stabilitySpreadSq (metricWindow track impactMs 200) ≤
          (2/5 * 12) ^ 2
      · rw [if_pos ?_]
        have h05 : (0.05 : ℚ) = 1/20 := by norm_num
        rw [h05]
        nlinarith [hc]
      · rw [if_neg hc] at h
        exact absurd h (by decide)

/-- Witness for the amended C3 at the concrete two-point track. -/
theorem c3_witness :
    inferNormalized (metricWindow c3Track (some 0) 250) = true ∧
    inferNormalized (metricWindow (scaleTrack 1000 c3Track) (some 0) 250) = false ∧
    inferNormalized (metricWindow c3Track (some 0) 200) = true ∧
    inferNormalized (metricWindow (scaleTrack 1000 c3Track) (some 0) 200) = false ∧
    (((computeSwingPlane c3Track (some 0)).label = "inside-out" →
        (computeSwingPlane (scaleTrack 1000 c3Track) (some 0)).label = "inside-out") ∧
      ((computeSwingPlane c3Track (some 0)).label = "outside-in" →
        (computeSwingPlane (scaleTrack 1000 c3Track) (some 0)).label = "outside-in") ∧
      ((computeImpactStability (scaleTrack 1000 c3Track) (some 0)).label = "stable" →
        (computeImpactStability c3Track (some 0)).label = "stable")) := by
  refine ⟨by with_unfolding_all decide, by with_unfolding_all decide,
    by with_unfolding_all decide, by with_unfolding_all decide, ?_⟩
  exact c3_amended c3Track (some 0) (by with_unfolding_all decide)
    (by with_unfolding_all decide) (by with_unfolding_all decide)
    (by with_unfolding_all decide)

/-! ## Helper lemmas: the from-file submission path -/

/-- After the handler's upsert-then-mark-running sequence, the stored
record is the fresh job with status `running`. -/
theorem getJob_after_fresh (jobs : List Job) (j : Job) (id now : String)
    (hid : j.jobId = id) :
    getJob (updateJob (upsertJob jobs j) id
        (fun k => { k with status := "running", startedAt := some now })) id =
      some { j with status := "running", startedAt := some now } := by
  subst hid
  rw [getJob_updateJob (upsertJob jobs j) j.jobId
    (fun k => { k with status := "running", startedAt := some now }) (fun k => rfl),
    getJob_upsertJob_self]
  rfl

/-- Claim C6: submission is idempotent per job identifier — a second
submission without `force` while the job is pending/running/done returns
the existing status, leaves state untouched and schedules no pipeline; a
`runMetaAnalysisJob` trigger while the identifier is in flight is a no-op;
submitting twice triggers exactly one pipeline execution and both
responses report the same status. -/
theorem c6_idempotent_submission :
    (∀ (s : ServerState) (payload : FromFileRequest) (now id : String) (job : Job),
      reqDerivedJobId payload = some id →
      payload.force = false →
      (strHasChar id '/' || strHasChar id '\\') = false →
      isSupportedVideoExt (targetFilenameOf payload id) = true →
      resolveUploadPathOk (targetFilenameOf payload id) = true →
      getJob s.jobs id = some job →
      (job.status = "pending" ∨ job.status = "running" ∨ job.status = "done") →
      postFromFile s payload now =
        (s, { code := 200, ok := true, jobId := some id, status := some job.status,
              message := none }, false)) ∧
    (∀ (env : PipelineEnv) (s : ServerState) (id : String),
      s.active.contains id = true → runMetaAnalysisJob env s id = s) ∧
    (∀ (s : ServerState) (payload : FromFileRequest) (now1 now2 id : String),
      reqDerivedJobId payload = some id →
      payload.force = false →
      (strHasChar id '/' || strHasChar id '\\') = false →
      isSupportedVideoExt (targetFilenameOf payload id) = true →
      resolveUploadPathOk (targetFilenameOf payload id) = true →
      getJob s.jobs id = none →
      (postFromFile s payload now1).2.2 = true ∧
      (postFromFile (postFromFile s payload now1).1 payload now2).2.2 = false ∧
      (postFromFile (postFromFile s payload now1).1 payload now2).1 =
        (postFromFile s payload now1).1 ∧
      (postFromFile s payload now1).2.1.status = some "running" ∧
      (postFromFile (postFromFile s payload now1).1 payload now2).2.1.status =
        some "running") := by
  refine ⟨?_, ?_, ?_⟩
  · intro s payload now id job hder hforce hslash hext hpath hget hstat
    rcases hstat with h | h | h <;>
      simp [postFromFile, hder, hslash, hext, hpath, hget, hforce, h]
  · intro env s id hact
    cases hg : getJob s.jobs id with
    | none => simp [runMetaAnalysisJob, hg]
    | some j =>
      simp only [runMetaAnalysisJob, hg]
      rw [if_pos hact]
  · intro s payload now1 now2 id hder hforce hslash hext hpath hget
    have e1 : postFromFile s payload now1 =
        ({ jobs := updateJob
              (upsertJob s.jobs (freshJob id (targetFilenameOf payload id) none now1)) id
              (fun j => { j with status := "running", startedAt := some now1 }),
           active := s.active },
         { code := 200, ok := true, jobId := some id, status := some "running",
           message := none }, true) := by
      simp [postFromFile, hder, hslash, hext, hpath, hget, hforce]
    have hget2 : getJob (updateJob
          (upsertJob s.jobs (freshJob id (targetFilenameOf payload id) none now1)) id
          (fun j => { j with status := "running", startedAt := some now1 })) id =
        some { freshJob id (targetFilenameOf payload id) none now1 with
               status := "running", startedAt := some now1 } :=
      getJob_after_fresh _ _ _ _ rfl
    have hst : ({ freshJob id (targetFilenameOf payload id) none now1 with
        status := "running", startedAt := some now1 } : Job).status = "running" := rfl
    have e2 : postFromFile
        ({ jobs := updateJob
              (upsertJob s.jobs (freshJob id (targetFilenameOf payload id) none now1)) id
              (fun j => { j with status := "running", startedAt := some now1 }),
           active := s.active } : ServerState) payload now2 =
        ({ jobs := updateJob
              (upsertJob s.jobs (freshJob id (targetFilenameOf payload id) none now1)) id
              (fun j => { j with status := "running", startedAt := some now1 }),
           active := s.active },
         { code := 200, ok := true, jobId := some id, status := some "running",
           message := none }, false) := by
      simp [postFromFile, hder, hslash, hext, hpath, hforce, hget2, hst]
    rw [e1]
    dsimp only
    rw [e2]
    exact ⟨rfl, rfl, rfl, rfl, rfl⟩

/-- Witness for C6 at a concrete store holding a completed job. -/
theorem c6_witness :
    getJob ([jobDoneRec] : List Job) "job1" = some jobDoneRec ∧
    postFromFile { jobs := [jobDoneRec], active := [] }
        { jobId := some "job1", filename := none, force := false }
        "2024-05-01T00:00:00.000Z" =
      ({ jobs := [jobDoneRec], active := [] },
       { code := 200, ok := true, jobId := some "job1", status := some "done",
         message := none }, false) := by
  refine ⟨rfl, ?_⟩
  exact c6_idempotent_submission.1 { jobs := [jobDoneRec], active := [] }
    { jobId := some "job1", filename := none, force := false }
    "2024-05-01T00:00:00.000Z" "job1" jobDoneRec rfl rfl
    (by with_unfolding_all decide) (by with_unfolding_all decide)
    (by with_unfolding_all decide) rfl (Or.inr (Or.inr rfl))

/-! ## Helper lemmas: the orchestrator's terminal writes -/

/-- Two successive `updateJob`s at the same identifier compose on the
looked-up record. -/
theorem getJob_double_update (jobs : List Job) (id : String) (p1 p2 : Job → Job) (j : Job)
    (h : getJob jobs id = some j)
    (hp1 : ∀ k, (p1 k).jobId = k.jobId) (hp2 : ∀ k, (p2 k).jobId = k.jobId) :
    getJob (updateJob (updateJob jobs id p1) id p2) id = some (p2 (p1 j)) := by
  rw [getJob_updateJob (updateJob jobs id p1) id p2 hp2,
    getJob_updateJob jobs id p1 hp1, h]
  rfl

/-- Claim C7: every exception thrown inside the meta-analysis pipeline is
caught at the orchestrator boundary — the job ends `failed` with the
exception's message as `errorMessage` and `finishedAt` recorded; every
terminal transition (`done` or `failed`) records `finishedAt`; the
orchestrator itself is a total function of its inputs (no exception
propagates out of `runMetaAnalysisJob`). -/
theorem c7_orchestrator_error_handling :
    ∀ (env : PipelineEnv) (s : ServerState) (id : String) (job : Job),
      getJob s.jobs id = some job →
      s.active.contains id = false →
      ∃ j', getJob (runMetaAnalysisJob env s id).jobs id = some j' ∧
        (j'.status = "done" ∨ j'.status = "failed") ∧
        j'.finishedAt = some env.now ∧
        (∀ msg, env.thrown = some msg →
          j'.status = "failed" ∧ j'.errorMessage = some msg) := by
  intro env s id job hget hact
  simp only [runMetaAnalysisJob, hget, hact, Bool.false_eq_true, if_false]
  cases ht : env.thrown with
  | some msg =>
    simp only [runPipelineBody, ht]
    exact ⟨_, getJob_double_update s.jobs id _ _ job hget (fun k => rfl) (fun k => rfl),
      Or.inr rfl, rfl, fun m hm => by
        cases hm
        exact ⟨rfl, rfl⟩⟩
  | none =>
    by_cases hfile : env.fileOk
    · cases hm : env.meta with
      | none =>
        simp only [runPipelineBody, ht, hfile, Bool.not_true, Bool.false_eq_true, if_false, hm]
        exact ⟨_, getJob_double_update s.jobs id _ _ job hget (fun k => rfl) (fun k => rfl),
          Or.inr rfl, rfl, fun m hm' => by simp at hm'⟩
      | some metaPayload =>
        by_cases hfr : (parseMeta metaPayload).frames.isEmpty
        · simp only [runPipelineBody, ht, hfile, Bool.not_true, Bool.false_eq_true, if_false,
            hm, hfr, if_true]
          exact ⟨_, getJob_double_update s.jobs id _ _ job hget (fun k => rfl) (fun k => rfl),
            Or.inr rfl, rfl, fun m hm' => by simp at hm'⟩
        · simp only [runPipelineBody, ht, hfile, Bool.not_true, Bool.false_eq_true, if_false,
            hm, hfr]
          exact ⟨_, getJob_double_update s.jobs id _ _ job hget (fun k => rfl) (fun k => rfl),
            Or.inl rfl, rfl, fun m hm' => by simp at hm'⟩
    · simp only [runPipelineBody, ht, hfile, Bool.not_false, if_true]
      exact ⟨_, getJob_double_update s.jobs id _ _ job hget (fun k => rfl) (fun k => rfl),
        Or.inr rfl, rfl, fun m hm' => by simp at hm'⟩

/-- Witness for C7: a pending job, an idle in-flight set, and a pipeline
that throws `"boom"`. -/
theorem c7_witness :
    getJob ([jobPendingRec] : List Job) "job2" = some jobPendingRec ∧
    ([] : List String).contains "job2" = false ∧
    (∃ j', getJob (runMetaAnalysisJob envThrowing { jobs := [jobPendingRec], active := [] }
            "job2").jobs "job2" = some j' ∧
      (j'.status = "done" ∨ j'.status = "failed") ∧
      j'.finishedAt = some envThrowing.now ∧
      (∀ msg, envThrowing.thrown = some msg →
        j'.status = "failed" ∧ j'.errorMessage = some msg)) := by
  exact ⟨rfl, rfl, c7_orchestrator_error_handling envThrowing
    { jobs := [jobPendingRec], active := [] } "job2" jobPendingRec rfl rfl⟩

/-- Claim C9: polling a job-store record always returns `jobId`, `status`,
`errorMessage` and structurally complete `events`/`metrics` objects
(all four event keys; `swingPlane`/`tempo`/`impactStability` with their
sub-keys), null-or-default-filled via `buildAnalysisResult` — in
particular `EMPTY_EVENTS`/`EMPTY_METRICS` when the job has no result yet. -/
theorem c9_job_polling_surface :
    ∀ (s : ServerState) (id : String) (job : Job),
      getJob s.jobs id = some job →
      (respondJobStatus s id).ok = true ∧
      (respondJobStatus s id).jobId = id ∧
      (respondJobStatus s id).status = some job.status ∧
      (respondJobStatus s id).errorMessage = job.errorMessage ∧
      (respondJobStatus s id).events = some (buildAnalysisResult job.result).events ∧
      (respondJobStatus s id).metrics = some (buildAnalysisResult job.result).metrics ∧
      (job.result = none →
        (respondJobStatus s id).events = some EMPTY_EVENTS ∧
        (respondJobStatus s id).metrics = some EMPTY_METRICS) := by
  intro s id job hget
  have hev : (respondJobStatus s id).events = some (buildAnalysisResult job.result).events := by
    simp [respondJobStatus, hget]
  have hme : (respondJobStatus s id).metrics =
      some (buildAnalysisResult job.result).metrics := by
    simp [respondJobStatus, hget]
  refine ⟨by simp [respondJobStatus, hget], by simp [respondJobStatus, hget],
    by simp [respondJobStatus, hget], by simp [respondJobStatus, hget], hev, hme, ?_⟩
  intro hres
  rw [hev, hme, hres]
  exact ⟨rfl, rfl⟩

/-- Witness for C9: a job with no result polls to the null-filled defaults. -/
theorem c9_witness :
    getJob ([jobPendingRec] : List Job) "job2" = some jobPendingRec ∧
    jobPendingRec.result = none ∧
    (respondJobStatus { jobs := [jobPendingRec], active := [] } "job2").events =
      some EMPTY_EVENTS ∧
    (respondJobStatus { jobs := [jobPendingRec], active := [] } "job2").metrics =
      some EMPTY_METRICS := by
  have h := c9_job_polling_surface { jobs := [jobPendingRec], active := [] } "job2"
    jobPendingRec rfl
  exact ⟨rfl, rfl, (h.2.2.2.2.2.2 rfl).1, (h.2.2.2.2.2.2 rfl).2⟩

/-- Claim C10: resubmitting a `failed` job without `force` does not return
the existing state — the record is replaced by a fresh job (built with
status `pending`, null result and error, the original `createdAt`
preserved), a new pipeline execution is scheduled, the response reports
`running`, and the stored record is the fresh job marked `running`. -/
theorem c10_failed_resubmission :
    ∀ (s : ServerState) (payload : FromFileRequest) (now id : String) (existing : Job),
      reqDerivedJobId payload = some id →
      payload.force = false →
      (strHasChar id '/' || strHasChar id '\\') = false →
      isSupportedVideoExt (targetFilenameOf payload id) = true →
      resolveUploadPathOk (targetFilenameOf payload id) = true →
      getJob s.jobs id = some existing →
      existing.status = "failed" →
      existing.createdAt ≠ "" →
      (postFromFile s payload now).2.2 = true ∧
      (postFromFile s payload now).2.1.status = some "running" ∧
      getJob (postFromFile s payload now).1.jobs id =
        some { freshJob id (targetFilenameOf payload id) (some existing) now with
               status := "running", startedAt := some now } ∧
      (freshJob id (targetFilenameOf payload id) (some existing) now).status = "pending" ∧
      (freshJob id (targetFilenameOf payload id) (some existing) now).createdAt =
        existing.createdAt ∧
      (freshJob id (targetFilenameOf payload id) (some existing) now).result = none ∧
      (freshJob id (targetFilenameOf payload id) (some existing) now).errorMessage =
        none := by
  intro s payload now id existing hder hforce hslash hext hpath hget hstat hcreated
  have e1 : postFromFile s payload now =
      ({ jobs := updateJob
            (upsertJob s.jobs (freshJob id (targetFilenameOf payload id) (some existing) now))
            id (fun j => { j with status := "running", startedAt := some now }),
         active := s.active },
       { code := 200, ok := true, jobId := some id, status := some "running",
         message := none }, true) := by
    simp [postFromFile, hder, hslash, hext, hpath, hget, hforce, hstat]
  rw [e1]
  refine ⟨rfl, rfl, ?_, rfl, ?_, rfl, rfl⟩
  · exact getJob_after_fresh _ _ _ _ rfl
  · simp [freshJob, hcreated]

/-- Witness for C10 at a concrete store holding a failed job. -/
theorem c10_witness :
    getJob ([jobFailedRec] : List Job) "job3" = some jobFailedRec ∧
    jobFailedRec.status = "failed" ∧
    (postFromFile { jobs := [jobFailedRec], active := [] }
        { jobId := some "job3", filename := none, force := false }
        "2024-06-01T00:00:00.000Z").2.2 = true ∧
    (postFromFile { jobs := [jobFailedRec], active := [] }
        { jobId := some "job3", filename := none, force := false }
        "2024-06-01T00:00:00.000Z").2.1.status = some "running" := by
  have h := c10_failed_resubmission { jobs := [jobFailedRec], active := [] }
    { jobId := some "job3", filename := none, force := false }
    "2024-06-01T00:00:00.000Z" "job3" jobFailedRec rfl rfl
    (by with_unfolding_all decide) (by with_unfolding_all decide)
    (by with_unfolding_all decide) rfl rfl (by with_unfolding_all decide)
  exact ⟨rfl, rfl, h.1, h.2.1⟩

/-- Witness for C4 at a one-frame payload with an explicit
already-milliseconds timestamp (2000 ≥ 1000, kept as-is). -/
theorem c4_witness :
    (parseMeta (some { fps := none, frames := [some { ts := some 2000, idx := some 0, detections := [] }] })).frames.length ≤ 1 ∧
    ({ t := some 2000, frame := some 0, detections := [] } : Frame) ∈
      (parseMeta (some { fps := none, frames := [some { ts := some 2000, idx := some 0, detections := [] }] })).frames ∧
    (({ t := some 2000, frame := some 0, detections := [] } : Frame)).t.isSome = true := by
  have hmem : ({ t := some 2000, frame := some 0, detections := [] } : Frame) ∈
      (parseMeta (some { fps := none, frames := [some { ts := some 2000, idx := some 0, detections := [] }] })).frames := by
    with_unfolding_all decide
  refine ⟨(c4_timestamp_resolution.2.2.2.2
    (some { fps := none, frames := [some { ts := some 2000, idx := some 0, detections := [] }] })).1, hmem, ?_⟩
  exact (c4_timestamp_resolution.2.2.2.2
    (some { fps := none, frames := [some { ts := some 2000, idx := some 0, detections := [] }] })).2 _ hmem

/-- Witness for C8: a single point at the origin is classified "pixel". -/
theorem c8_witness :
    (∀ p ∈ ([{ t := 0, frame := none, x := 0, y := 0, conf := none }] : List TrackPoint),
      p.x = 0 ∧ p.y = 0) ∧
    inferNormalized [{ t := 0, frame := none, x := 0, y := 0, conf := none }] = false := by
  refine ⟨by with_unfolding_all decide, ?_⟩
  exact c8_domain_classification.2.2 _ (by with_unfolding_all decide)
